import Mathlib

/-!
# NemOS backend: upgrade router and streaming sessions

A shallow embedding of the WebSocket part of `src/backend/server.js`:
the `upgrade` listener (lines 209-228) and the six `connection` listeners
(`dockerStatsWss` 497-526, `dockerLogsWss` 528-541, `systemStatsWss` 714-731,
`networkPingWss` 751-760, `shellWss` 971-990, `dockerShellWss` 994-1016).

Calls into the runtime and into libraries (`ws`, `node-pty`, `child_process`,
`dockerode`, timers) are recorded as a list of `Effect`s in the order the code
makes them; a listener either completes normally or throws.  `console.log` and
`console.error` calls are not recorded.
-/

namespace Nemos

/-! ## Strings -/

/-- The test `s.startsWith(pre)` of JavaScript, on the characters of both strings. -/
def startsWith (s pre : String) : Bool :=
  pre.data.isPrefixOf s.data

/-- Segments of `s.split('/')` on a list of characters: never empty, one more
segment than there are slashes. -/
def splitSlash : List Char → List (List Char)
  | [] => [[]]
  | c :: cs =>
    if c = '/' then [] :: splitSlash cs
    else
      match splitSlash cs with
      | seg :: rest => (c :: seg) :: rest
      | [] => [[c]]

/-- The array `s.split('/')`. -/
def split (s : String) : List String :=
  (splitSlash s.data).map String.mk

/-! ## Session kinds and the router -/

/-- The six WebSocket servers a connection can be handed to:
`dockerStatsWss`, `dockerLogsWss`, `systemStatsWss`, `networkPingWss`,
`shellWss`, `dockerShellWss`. -/
inductive Kind
  | ContainerList
  | ContainerLog
  | HostMetrics
  | NetworkPing
  | Shell
  | ContainerExec
  deriving DecidableEq, Repr

/-- The prefix tested by each branch of the `upgrade` listener, in source
order (lines 213, 215, 217, 219, 221, 223), with the server the branch emits
`connection` on. -/
def routerTable : List (String × Kind) :=
  [ ("/api/docker/stats", .ContainerList),
    ("/api/docker/containers/", .ContainerLog),
    ("/api/system/stats", .HostMetrics),
    ("/api/network/ping", .NetworkPing),
    ("/api/shell", .Shell),
    ("/api/docker/shell/", .ContainerExec) ]

/-- The if/else chain of lines 213-227: the server chosen for a pathname, or
`none` for the final `else` (`socket.destroy()`). -/
def route (pathname : String) : Option Kind :=
  if startsWith pathname "/api/docker/stats" then some .ContainerList
  else if startsWith pathname "/api/docker/containers/" then some .ContainerLog
  else if startsWith pathname "/api/system/stats" then some .HostMetrics
  else if startsWith pathname "/api/network/ping" then some .NetworkPing
  else if startsWith pathname "/api/shell" then some .Shell
  else if startsWith pathname "/api/docker/shell/" then some .ContainerExec
  else none

/-- First entry of a table, in the table's order, whose prefix the pathname
starts with: an if/else chain testing the entries in that order. -/
def firstMatch (table : List (String × Kind)) (pathname : String) : Option Kind :=
  (table.find? (fun e => startsWith pathname e.1)).map (·.2)

/-- Of two candidate entries, the one with the longer prefix (the earlier one
when the lengths agree). -/
def longer (best : Option (String × Kind)) (e : String × Kind) : Option (String × Kind) :=
  match best with
  | none => some e
  | some b => if b.1.length < e.1.length then some e else some b

/-- Longest-specific-prefix lookup of section 4.1 of the specification: among
the entries whose prefix the pathname starts with, the kind of the entry with
the longest prefix; `none` when no entry matches. -/
def longestPrefixMatch (table : List (String × Kind)) (pathname : String) : Option Kind :=
  ((table.filter (fun e => startsWith pathname e.1)).foldl longer none).map (·.2)

/-! ## JavaScript values and `JSON.parse` -/

/-- The exceptions the modelled code can raise: `SyntaxError` from `JSON.parse`,
`TypeError` from destructuring or reading a property of `undefined`/`null` and
from the `URL` constructor. -/
inductive JSError
  | SyntaxError
  | TypeError
  /-- A plain `Error`, as thrown by a failing `pty.spawn` or raised for an
  `error` event nobody listens to. -/
  | Error
  deriving DecidableEq, Repr

/-- JavaScript values that can reach the message listeners: what `JSON.parse`
returns, and `undefined` for a property that is not there.  A number is kept
as the decimal `mantissa * 10 ^ exponent` of its JSON literal, before rounding
to a double; a string holds Unicode scalar values. -/
inductive JSValue
  | undefined
  | null
  | bool (b : Bool)
  | number (mantissa : Int) (exponent : Int)
  | string (s : String)
  | array (items : List JSValue)
  | object (props : List (String × JSValue))

namespace JSValue

/-- The property read `v.key` for a key that no prototype defines (`type`,
`data`, `cols`, `rows`): the own property of an object, `undefined` otherwise.
The caller excludes `undefined` and `null`, on which the read throws. -/
def get (v : JSValue) (key : String) : JSValue :=
  match v with
  | .object props => (props.lookup key).getD .undefined
  | _ => .undefined

/-- Holds for `undefined` and `null`: destructuring or reading a property throws `TypeError`. -/
def isNullish : JSValue → Bool
  | .undefined => true
  | .null => true
  | _ => false

/-- The comparison `v === s` against a string literal. -/
def strictEq (v : JSValue) (s : String) : Bool :=
  match v with
  | .string t => t == s
  | _ => false

end JSValue

namespace JSON

/-- JSON white space: tab, line feed, carriage return, space. -/
def isWhiteSpace (c : Char) : Bool :=
  c == '\t' || c == '\n' || c == '\r' || c == ' '

/-- Drops leading JSON white space. -/
def skipWs : List Char → List Char
  | [] => []
  | c :: cs => if isWhiteSpace c then skipWs cs else c :: cs

/-- Reads a maximal run of decimal digits onto `acc`: the value, the number of
digits read and the rest of the input. -/
def digits : List Char → Nat → Nat → Nat × Nat × List Char
  | [], acc, n => (acc, n, [])
  | c :: cs, acc, n =>
    if c.isDigit then digits cs (acc * 10 + (c.toNat - 48)) (n + 1) else (acc, n, c :: cs)

/-- Value of a hexadecimal digit. -/
def hexDigit (c : Char) : Option Nat :=
  if c.isDigit then some (c.toNat - 48)
  else if 'a' ≤ c ∧ c ≤ 'f' then some (c.toNat - 87)
  else if 'A' ≤ c ∧ c ≤ 'F' then some (c.toNat - 55)
  else none

/-- Four hexadecimal digits of a `\u` escape: the code unit and the rest. -/
def hex4 : List Char → Option (Nat × List Char)
  | a :: b :: c :: d :: rest =>
    match hexDigit a, hexDigit b, hexDigit c, hexDigit d with
    | some x, some y, some z, some w => some (((x * 16 + y) * 16 + z) * 16 + w, rest)
    | _, _, _, _ => none
  | _ => none

/-- A JSON number literal `-? (0 | [1-9][0-9]*) (. [0-9]+)? ([eE] [+-]? [0-9]+)?`
at the head of the input. -/
def parseNumber (cs : List Char) : Option (JSValue × List Char) :=
  let signed : Bool × List Char :=
    match cs with
    | '-' :: r => (true, r)
    | _ => (false, cs)
  let intPart : Option (Nat × List Char) :=
    match signed.2 with
    | '0' :: r => some (0, r)
    | c :: r => if c.isDigit then (let d := digits (c :: r) 0 0; some (d.1, d.2.2)) else none
    | [] => none
  match intPart with
  | none => none
  | some (i, cs2) =>
    let frac : Option (Nat × Nat × List Char) :=
      match cs2 with
      | '.' :: r => (let d := digits r i 0; if d.2.1 = 0 then none else some d)
      | _ => some (i, 0, cs2)
    match frac with
    | none => none
    | some (m, fl, cs3) =>
      let mant : Int := if signed.1 then -(m : Int) else (m : Int)
      match cs3 with
      | c :: r =>
        if c = 'e' ∨ c = 'E' then
          let sgn : Int × List Char :=
            match r with
            | '+' :: r1 => (1, r1)
            | '-' :: r1 => (-1, r1)
            | _ => (1, r)
          let d := digits sgn.2 0 0
          if d.2.1 = 0 then none else some (.number mant (sgn.1 * (d.1 : Int) - (fl : Int)), d.2.2)
        else some (.number mant (-(fl : Int)), cs3)
      | [] => some (.number mant (-(fl : Int)), [])

/-- The body of a JSON string after its opening quote, up to and including the
closing quote: no raw control character, escapes `\" \\ \/ \b \f \n \r \t
\uXXXX`.  A surrogate pair of `\u` escapes is one character; a lone surrogate
escape, which a Lean string cannot hold, is U+FFFD. -/
def parseString : Nat → List Char → List Char → Option (String × List Char)
  | 0, _, _ => none
  | _ + 1, [], _ => none
  | fuel + 1, c :: rest, acc =>
    if c = '\x22' then some (String.mk acc.reverse, rest)
    else if c = '\x5c' then
      match rest with
      | '\x22' :: r => parseString fuel r ('\x22' :: acc)
      | '\x5c' :: r => parseString fuel r ('\x5c' :: acc)
      | '/' :: r => parseString fuel r ('/' :: acc)
      | 'b' :: r => parseString fuel r (Char.ofNat 8 :: acc)
      | 'f' :: r => parseString fuel r (Char.ofNat 12 :: acc)
      | 'n' :: r => parseString fuel r ('\n' :: acc)
      | 'r' :: r => parseString fuel r ('\r' :: acc)
      | 't' :: r => parseString fuel r ('\t' :: acc)
      | 'u' :: r =>
        match hex4 r with
        | none => none
        | some (hi, r1) =>
          if 0xD800 ≤ hi ∧ hi < 0xDC00 then
            match r1 with
            | '\x5c' :: 'u' :: r2 =>
              match hex4 r2 with
              | some (lo, r3) =>
                if 0xDC00 ≤ lo ∧ lo < 0xE000 then
                  parseString fuel r3 (Char.ofNat (0x10000 + (hi - 0xD800) * 0x400 + (lo - 0xDC00)) :: acc)
                else parseString fuel r1 (Char.ofNat 0xFFFD :: acc)
              | none => parseString fuel r1 (Char.ofNat 0xFFFD :: acc)
            | _ => parseString fuel r1 (Char.ofNat 0xFFFD :: acc)
          else if 0xDC00 ≤ hi ∧ hi < 0xE000 then parseString fuel r1 (Char.ofNat 0xFFFD :: acc)
          else parseString fuel r1 (Char.ofNat hi :: acc)
      | _ => none
    else if c.toNat < 0x20 then none
    else parseString fuel rest (c :: acc)

/-- The step `CreateDataProperty(obj, key, value)` of `JSON.parse`: a repeated key
keeps its place and takes the later value. -/
def setProp : List (String × JSValue) → String → JSValue → List (String × JSValue)
  | [], k, v => [(k, v)]
  | (k0, v0) :: ps, k, v => if k0 = k then (k, v) :: ps else (k0, v0) :: setProp ps k v

mutual

/-- A JSON value at the head of the input, after optional white space. -/
def parseValue : Nat → List Char → Option (JSValue × List Char)
  | 0, _ => none
  | fuel + 1, cs =>
    match skipWs cs with
    | '\x7b' :: rest =>
      match skipWs rest with
      | '\x7d' :: r => some (.object [], r)
      | r => parseMembers fuel r []
    | '[' :: rest =>
      match skipWs rest with
      | ']' :: r => some (.array [], r)
      | r => parseElements fuel r []
    | '\x22' :: rest =>
      match parseString (rest.length + 1) rest [] with
      | some (s, r) => some (.string s, r)
      | none => none
    | 'n' :: 'u' :: 'l' :: 'l' :: r => some (.null, r)
    | 't' :: 'r' :: 'u' :: 'e' :: r => some (.bool true, r)
    | 'f' :: 'a' :: 'l' :: 's' :: 'e' :: r => some (.bool false, r)
    | other => parseNumber other

/-- The elements of a non-empty array after `[`, up to and including `]`;
`acc` holds the elements read so far, latest first. -/
def parseElements : Nat → List Char → List JSValue → Option (JSValue × List Char)
  | 0, _, _ => none
  | fuel + 1, cs, acc =>
    match parseValue fuel cs with
    | none => none
    | some (v, rest) =>
      match skipWs rest with
      | ',' :: r => parseElements fuel r (v :: acc)
      | ']' :: r => some (.array (v :: acc).reverse, r)
      | _ => none

/-- The members of a non-empty object after `{`, up to and including `}`;
`acc` holds the properties defined so far. -/
def parseMembers : Nat → List Char → List (String × JSValue) → Option (JSValue × List Char)
  | 0, _, _ => none
  | fuel + 1, cs, acc =>
    match skipWs cs with
    | '\x22' :: r1 =>
      match parseString (r1.length + 1) r1 [] with
      | none => none
      | some (k, r2) =>
        match skipWs r2 with
        | ':' :: r3 =>
          match parseValue fuel r3 with
          | none => none
          | some (v, r4) =>
            match skipWs r4 with
            | ',' :: r5 => parseMembers fuel r5 (setProp acc k v)
            | '\x7d' :: r5 => some (.object (setProp acc k v), r5)
            | _ => none
        | _ => none
    | _ => none

end

/-- The call `JSON.parse(text)`: the value of the one JSON text that, with white
space around it, makes up the whole input; `SyntaxError` otherwise. -/
def parse (text : String) : Except JSError JSValue :=
  match parseValue (2 * text.data.length + 2) text.data with
  | some (v, rest) =>
    match skipWs rest with
    | [] => .ok v
    | _ => .error .SyntaxError
  | none => .error .SyntaxError

end JSON

/-! ## Requests, effects, listeners -/

/-- What the handlers read from an upgrade request.  `pathname` and `host` are
the answers of the WHATWG `URL` class for `url`. -/
structure UpgradeRequest where
  /-- The request target `request.url`, as sent by the client. -/
  url : String
  /-- The value `new URL(request.url, base).pathname` of line 211; `none` when
  the `URL` constructor throws. -/
  pathname : Option String
  /-- The value `url.searchParams.get('host')` of line 753; `none` for `null`. -/
  host : Option String
  /-- Whether `wss.handleUpgrade` completes the opening handshake and calls its
  callback, which emits `connection`. -/
  handshake : Bool

/-- What the handlers read from the process and from `dockerode`. -/
structure Env where
  /-- The value of `os.platform()`. -/
  platform : String
  /-- Whether `docker.getContainer(id)` is truthy; the argument is `none` for an
  `undefined` id. -/
  containerTruthy : Option String → Bool

/-- The constant `shell` of line 132. -/
def shell (env : Env) : String :=
  if env.platform = "win32" then "powershell.exe" else "bash"

/-- The functions handed to `setInterval`. -/
inductive Tick
  | sendAllContainers
  | sendSystemStats
  deriving DecidableEq, Repr

/-- The four `systeminformation` calls of lines 718-721. -/
inductive Collector
  | currentLoad
  | mem
  | fsSize
  | networkStats
  deriving DecidableEq, Repr

/-- The functions the connection handlers register as listeners. -/
inductive Listener
  /-- Lines 980 and 1006: `term.onData(data => ws.send(data))`. -/
  | termOnData
  /-- Lines 981-988 and 1007-1014: `ws.on('message', message => ...)`. -/
  | wsMessage
  /-- Lines 989 and 1015: `ws.on('close', () => term.kill())`. -/
  | wsCloseKillTerm
  /-- Line 757: `ping.stdout.on('data', data => ws.send(data.toString()))`. -/
  | pingStdoutData
  /-- Line 758: `ping.stderr.on('data', data => ws.send(data.toString()))`. -/
  | pingStderrData
  /-- Line 759: `ws.on('close', () => ping.kill())`. -/
  | wsCloseKillPing
  /-- Lines 522-525 and 730: `ws.on('close', () => clearInterval(interval))`. -/
  | wsCloseClearInterval
  /-- Line 538: `stream.on('data', chunk => ws.send(chunk.toString('utf8')))`. -/
  | streamData
  /-- Line 539: `ws.on('close', () => stream.destroy())`. -/
  | wsCloseDestroyStream
  deriving DecidableEq, Repr

/-- The calls the modelled code makes on the runtime and on its libraries. -/
inductive Effect
  /-- The call `wss.handleUpgrade(request, socket, head, cb)` whose callback emits
  `connection` on the server of the given kind. -/
  | handleUpgrade (k : Kind)
  /-- The call `socket.destroy()`. -/
  | socketDestroy
  /-- The call `pty.spawn(file, args, { name, cols, rows, cwd, env })`; `cwd` and
  `env` are `process.env.HOME` and `process.env`. -/
  | ptySpawn (file : String) (args : List String) (name : String) (cols rows : Nat)
  /-- The call `spawn(command, args)` of `child_process`, without options. -/
  | spawn (command : String) (args : List String)
  /-- The call `setInterval(f, ms)`. -/
  | setInterval (f : Tick) (ms : Nat)
  /-- The call `clearInterval(interval)` on the session's timer. -/
  | clearInterval
  /-- The call `docker.listContainers({ all: true }, cb)`. -/
  | listContainers
  /-- One of the four `systeminformation` calls. -/
  | collect (c : Collector)
  /-- The call `docker.getContainer(containerId)`. -/
  | getContainer (id : Option String)
  /-- The call `container.logs({ follow: true, stdout: true, stderr: true }, cb)`. -/
  | logs (id : Option String)
  /-- The call `stream.destroy()` on the attached log stream. -/
  | streamDestroy
  /-- Registration of a listener. -/
  | on (l : Listener)
  /-- The call `ws.send(data)` with a string. -/
  | wsSend (data : String)
  /-- The call `ws.send(JSON.stringify(value))`. -/
  | wsSendJSON (value : JSValue)
  /-- The call `ws.close()`. -/
  | wsClose
  /-- The call `term.write(data)`. -/
  | termWrite (data : JSValue)
  /-- The call `term.resize(cols, rows)`. -/
  | termResize (cols rows : JSValue)
  /-- The call `term.kill()` or `ping.kill()` on the session's process. -/
  | kill

/-- How a listener ends: it returns, or an exception leaves it. -/
inductive Completion
  | normal
  | throw (e : JSError)
  deriving DecidableEq, Repr

/-- One run of a listener: the calls it made, in order, and how it ended.  The
library calls themselves are taken to return, unless a definition says that one
throws; a call that throws is not recorded. -/
structure Run where
  effects : List Effect
  completion : Completion

/-! ## The pty of `node-pty`

The package `node-pty` is a dependency of `server.js` and not among its sources.
The two definitions `termWriteThrows` and `termResizeThrows` say when its calls
`write` and `resize` throw. -/

/-- The number `2 ^ 1075`.  A positive value rounds to a double above zero when
it exceeds `2 ^ (-1075)`, half the least positive double. -/
def twoPow1075 : Int :=
  404804506614621236704990693437834614099113299528284236713802716054860679135990693783920767402874248990374155728633623822779617474771586953734026799881477019843034848553132722728933815484186432682479535356945490137124014966849385397236206711298319112681620113024717539104666829230461005064372655017292012526615415482186989568

/-- The number `2 ^ 1024 - 2 ^ 970`, halfway between the greatest finite double
and `2 ^ 1024`.  A value rounds to a finite double when it is below it. -/
def infinityBound : Int :=
  179769313486231580793728971405303415079934132710037826936173778980444968292764750946649017977587207096330286416692887910946555547851940402630657488671505820681908902000708383676273854845817711531764475730270069855571366959622842914819860834936475292719074168444365510704342711559699508093042880177904174497792

namespace JSValue

/-- Holds for a number whose double is above zero: the value
`mantissa * 10 ^ exponent` of the literal is positive and exceeds `2 ^ (-1075)`,
up to which rounding gives `0`. -/
def roundsAboveZero : JSValue → Bool
  | .number m e =>
    decide (0 < m) && decide ((10 : Int) ^ (-e).toNat < m * 10 ^ e.toNat * twoPow1075)
  | _ => false

/-- Holds for a number whose double is finite: the value
`mantissa * 10 ^ exponent` of the literal is below `2 ^ 1024 - 2 ^ 970`, from
where on rounding gives `Infinity`. -/
def roundsBelowInfinity : JSValue → Bool
  | .number m e => decide (m * 10 ^ e.toNat < infinityBound * 10 ^ (-e).toNat)
  | _ => false

end JSValue

/-- The call `term.write(data)` of lines 984 and 1010 on the pty of `node-pty`,
which hands `data` to the `write` of the pty's socket: that `write` takes a
string, also after the process has exited, and throws `TypeError` for every
other value `JSON.parse` can return.  `none` when the call returns. -/
def termWriteThrows (data : JSValue) : Option JSError :=
  match data with
  | .string _ => none
  | _ => some .TypeError

/-- The call `term.resize(cols, rows)` of lines 986 and 1012 on the pty of
`node-pty`.  It throws `Error` when
`cols <= 0 || rows <= 0 || isNaN(cols) || isNaN(rows) || cols === Infinity || rows === Infinity`
and, in the native call, when an argument is not a number or when the `ioctl`
fails, as it does with `EBADF` once the process has exited and the pty is
closed (`exited`).  So it returns only for two numbers above zero and finite,
on a pty whose process runs.  `none` when the call returns. -/
def termResizeThrows (exited : Bool) (cols rows : JSValue) : Option JSError :=
  if cols.roundsAboveZero && cols.roundsBelowInfinity &&
      rows.roundsAboveZero && rows.roundsBelowInfinity && !exited then none
  else some .Error

/-! ## The message listener of the two pty sessions -/

/-- The listener `message => { ... }` of lines 981-988 (`shellWss`) and
1007-1014 (`dockerShellWss`), after `JSON.parse(message)` has produced
`parsed`; `exited` tells whether the process of the pty has exited.  Nothing in
the listener catches an exception. -/
def ptyOnParsed (exited : Bool) (parsed : Except JSError JSValue) : Run :=
  match parsed with
  | .error e => ⟨[], .throw e⟩
  | .ok v =>
    -- const { type, data } = v
    if v.isNullish then ⟨[], .throw .TypeError⟩
    else
      let type := v.get "type"
      let data := v.get "data"
      if type.strictEq "input" then
        match termWriteThrows data with
        | none => ⟨[.termWrite data], .normal⟩
        | some e => ⟨[], .throw e⟩
      else if type.strictEq "resize" then
        -- data.cols is read first
        if data.isNullish then ⟨[], .throw .TypeError⟩
        else
          match termResizeThrows exited (data.get "cols") (data.get "rows") with
          | none => ⟨[.termResize (data.get "cols") (data.get "rows")], .normal⟩
          | some e => ⟨[], .throw e⟩
      else ⟨[], .normal⟩

/-- The listener `message => { ... }` of lines 981-988 and 1007-1014 on the text
of an inbound frame. -/
def ptyOnMessage (exited : Bool) (message : String) : Run :=
  ptyOnParsed exited (JSON.parse message)

/-! ## The six connection handlers -/

/-- Lines 497-526, `dockerStatsWss.on('connection', ...)`: `sendAllContainers()`
calls `docker.listContainers`, then the timer and the close listener. -/
def dockerStatsOnConnection : List Effect :=
  [.listContainers, .setInterval .sendAllContainers 2000, .on .wsCloseClearInterval]

/-- Lines 528-541, `dockerLogsWss.on('connection', ...)`, up to the call of
`container.logs`; its callback runs later. -/
def dockerLogsOnConnection (env : Env) (req : UpgradeRequest) : List Effect :=
  let containerId := (split req.url)[4]?
  if env.containerTruthy containerId then [.getContainer containerId, .logs containerId]
  else [.getContainer containerId, .wsClose]

/-- Lines 714-731, `systemStatsWss.on('connection', ...)`: `sendSystemStats()`
starts the four collectors, then the timer and the close listener. -/
def systemStatsOnConnection : List Effect :=
  [.collect .currentLoad, .collect .mem, .collect .fsSize, .collect .networkStats,
   .setInterval .sendSystemStats 2000, .on .wsCloseClearInterval]

/-- Lines 751-760, `networkPingWss.on('connection', ...)`. -/
def networkPingOnConnection (req : UpgradeRequest) : List Effect :=
  match req.host with
  | none => [.wsClose]
  | some host =>
    if host = "" then [.wsClose]
    else [.spawn "ping" [host], .on .pingStdoutData, .on .pingStderrData, .on .wsCloseKillPing]

/-- Lines 971-990, `shellWss.on('connection', ...)`. -/
def shellOnConnection (env : Env) : List Effect :=
  [.ptySpawn (shell env) [] "xterm-color" 80 30, .on .termOnData, .on .wsMessage,
   .on .wsCloseKillTerm]

/-- Lines 994-1016, `dockerShellWss.on('connection', ...)`. -/
def dockerShellOnConnection (req : UpgradeRequest) : List Effect :=
  match (split req.url).getLast? with
  | none => [.wsClose]
  | some containerId =>
    if containerId = "" then [.wsClose]
    else
      [.ptySpawn "docker"
          ["exec", "-it", containerId, "sh", "-c", "TERM=xterm-256color /bin/bash || /bin/sh"]
          "xterm-color" 80 30,
       .on .termOnData, .on .wsMessage, .on .wsCloseKillTerm]

/-- The connection handler of the server of each kind. -/
def onConnection (env : Env) (k : Kind) (req : UpgradeRequest) : List Effect :=
  match k with
  | .ContainerList => dockerStatsOnConnection
  | .ContainerLog => dockerLogsOnConnection env req
  | .HostMetrics => systemStatsOnConnection
  | .NetworkPing => networkPingOnConnection req
  | .Shell => shellOnConnection env
  | .ContainerExec => dockerShellOnConnection req

/-- Lines 209-228, `server.on('upgrade', ...)`: the router, followed by the
connection handler that the callback of `handleUpgrade` emits to when the
handshake completes. -/
def onUpgrade (env : Env) (req : UpgradeRequest) : Run :=
  match req.pathname with
  | none => ⟨[], .throw .TypeError⟩
  | some pathname =>
    match route pathname with
    | some k =>
      if req.handshake then ⟨.handleUpgrade k :: onConnection env k req, .normal⟩
      else ⟨[.handleUpgrade k], .normal⟩
    | none => ⟨[.socketDestroy], .normal⟩

/-! ## Events of a session -/

/-- What the runtime delivers to a session after its connection handler. -/
inductive Event
  /-- The pty produced an output chunk. -/
  | termData (chunk : String)
  /-- A frame arrived from the client; `message` is its text. -/
  | wsMessage (message : String)
  /-- The connection closed. -/
  | wsClose
  /-- The ping process wrote to its standard output; `chunk` is `data.toString()`. -/
  | pingStdout (chunk : String)
  /-- The ping process wrote to its standard error; `chunk` is `data.toString()`. -/
  | pingStderr (chunk : String)
  /-- The log stream produced a chunk; `chunk` is `chunk.toString('utf8')`. -/
  | streamData (chunk : String)
  /-- The session's process exited and its pty, if it has one, was closed; no
  handler in `server.js` listens for it. -/
  | processExit

/-- Holds for the exit of the session's process. -/
def Event.isExit : Event → Bool
  | .processExit => true
  | _ => false

/-- The body of a listener on an event it is registered for; `none` for any
other event.  `exited` tells whether the session's process has exited. -/
def Listener.run : Listener → Bool → Event → Option Run
  | .termOnData, _, .termData chunk => some ⟨[.wsSend chunk], .normal⟩
  | .wsMessage, exited, .wsMessage message => some (ptyOnMessage exited message)
  | .wsCloseKillTerm, _, .wsClose => some ⟨[.kill], .normal⟩
  | .pingStdoutData, _, .pingStdout chunk => some ⟨[.wsSend chunk], .normal⟩
  | .pingStderrData, _, .pingStderr chunk => some ⟨[.wsSend chunk], .normal⟩
  | .wsCloseKillPing, _, .wsClose => some ⟨[.kill], .normal⟩
  | .wsCloseClearInterval, _, .wsClose => some ⟨[.clearInterval], .normal⟩
  | .streamData, _, .streamData chunk => some ⟨[.wsSend chunk], .normal⟩
  | .wsCloseDestroyStream, _, .wsClose => some ⟨[.streamDestroy], .normal⟩
  | _, _, _ => none

/-- The listeners a list of calls registered, in registration order. -/
def listeners : List Effect → List Listener
  | [] => []
  | .on l :: fx => l :: listeners fx
  | _ :: fx => listeners fx

/-- Delivery of one event: the registered listeners for it run in registration
order; an exception leaving one of them ends the delivery. -/
def emit : List Listener → Bool → Event → Run
  | [], _, _ => ⟨[], .normal⟩
  | l :: ls, exited, ev =>
    match l.run exited ev with
    | none => emit ls exited ev
    | some r =>
      match r.completion with
      | .normal => ⟨r.effects ++ (emit ls exited ev).effects, (emit ls exited ev).completion⟩
      | .throw e => ⟨r.effects, .throw e⟩

/-- Delivery of a sequence of events to a session whose process has exited or
not (`exited`); the process has exited for the events that follow its exit.  An
exception that leaves a listener is caught nowhere in `server.js` and ends the
Node process, so the events after it are not delivered. -/
def runEventsFrom (ls : List Listener) : Bool → List Event → Run
  | _, [] => ⟨[], .normal⟩
  | exited, ev :: evs =>
    match (emit ls exited ev).completion with
    | .normal =>
      ⟨(emit ls exited ev).effects ++ (runEventsFrom ls (exited || ev.isExit) evs).effects,
        (runEventsFrom ls (exited || ev.isExit) evs).completion⟩
    | .throw e => ⟨(emit ls exited ev).effects, .throw e⟩

/-- Delivery of a sequence of events to a session from its connection handler
on: the process runs until its exit is among the events. -/
def runEvents (ls : List Listener) (evs : List Event) : Run :=
  runEventsFrom ls false evs

/-! ## Observations on a list of calls -/

/-- Holds for the calls that construct a session's handle: a spawned process,
an interval timer, or the attach of a log stream. -/
def Effect.constructsHandle : Effect → Bool
  | .ptySpawn _ _ _ _ _ => true
  | .spawn _ _ => true
  | .setInterval _ _ => true
  | .logs _ => true
  | _ => false

/-- Number of handles constructed. -/
def handleCount (fx : List Effect) : Nat :=
  fx.countP Effect.constructsHandle

/-- The kinds `handleUpgrade` was called for, in order. -/
def dispatched : List Effect → List Kind
  | [] => []
  | .handleUpgrade k :: fx => k :: dispatched fx
  | _ :: fx => dispatched fx

/-- Holds for `term.kill()` / `ping.kill()`. -/
def Effect.isKill : Effect → Bool
  | .kill => true
  | _ => false

/-- Holds for `pty.spawn` and `spawn`. -/
def Effect.isSpawn : Effect → Bool
  | .ptySpawn _ _ _ _ _ => true
  | .spawn _ _ => true
  | _ => false

/-- Holds for `ws.send`. -/
def Effect.isSend : Effect → Bool
  | .wsSend _ => true
  | .wsSendJSON _ => true
  | _ => false

/-! ## The Control Message shape of the specification -/

/-- Holds for a number with an integer value. -/
def isInteger : JSValue → Bool
  | .number m e => decide (0 ≤ e) || decide (m % (10 ^ (-e).toNat : Int) = 0)
  | _ => false

/-- The Control Message of section 3 of the specification:
`{type: "input", data: string}` or `{type: "resize", data: {cols: int, rows: int}}`. -/
def isControlMessage (v : JSValue) : Bool :=
  match v with
  | .object _ =>
    ((v.get "type").strictEq "input" &&
      (match v.get "data" with
       | .string _ => true
       | _ => false)) ||
    ((v.get "type").strictEq "resize" &&
      (match v.get "data" with
       | .object props => isInteger ((JSValue.object props).get "cols") &&
           isInteger ((JSValue.object props).get "rows")
       | _ => false))
  | _ => false

/-! ## The snapshot functions of the two pollers -/

/-- The synchronous part of `sendAllContainers` (lines 499-519): the call of
`docker.listContainers`; the callback runs later. -/
def sendAllContainers : List Effect :=
  [.listContainers]

/-- The synchronous part of `sendSystemStats` (lines 715-727): the four
collectors are started for `Promise.all`; the function resumes when they have
settled. -/
def sendSystemStats : List Effect :=
  [.collect .currentLoad, .collect .mem, .collect .fsSize, .collect .networkStats]

/-- The function a timer calls. -/
def Tick.run : Tick → List Effect
  | .sendAllContainers => Nemos.sendAllContainers
  | .sendSystemStats => Nemos.sendSystemStats

/-- An entry of the array `docker.listContainers` hands to its callback, with
the fields line 506-513 read: `Names` is an array of strings or is absent
(`none`); the other fields are passed on as they are. -/
structure ContainerInfo where
  Id : JSValue
  Names : Option (List String)
  Image : JSValue
  State : JSValue
  Status : JSValue
  Ports : JSValue

/-- Line 508: `c.Names && c.Names.length > 0 ? c.Names[0].substring(1) : '(no name)'`;
`substring(1)` drops the first character. -/
def containerName (c : ContainerInfo) : String :=
  match c.Names with
  | none => "(no name)"
  | some names =>
    if names.length > 0 then
      match names[0]? with
      | some first => String.mk (first.data.drop 1)
      | none => "(no name)"
    else "(no name)"

/-- Lines 506-513: the object built for one container. -/
def simplifyContainer (c : ContainerInfo) : JSValue :=
  .object [("Id", c.Id), ("Name", .string (containerName c)), ("Image", c.Image),
    ("State", c.State), ("Status", c.Status), ("Ports", c.Ports)]

/-- Lines 500-518, the callback `(err, containers) => ...` of
`docker.listContainers`: `result` is `none` when `err` is set; `sendThrows`
tells whether `JSON.stringify` or `ws.send` throws inside the `try`, in which
case the frame is not sent and the `catch` only logs. -/
def onListContainers (result : Option (List ContainerInfo)) (sendThrows : Bool) : Run :=
  match result with
  | none => ⟨[], .normal⟩
  | some containers =>
    if sendThrows then ⟨[], .normal⟩
    else
      ⟨[.wsSendJSON (.object [("type", .string "all-containers"),
          ("payload", .array (containers.map simplifyContainer))])], .normal⟩

/-- Lines 716-726, `sendSystemStats` after the `await`: each argument is the
result of one collector, `none` when its promise rejects, so that `Promise.all`
rejects and the `catch` only logs; `sendThrows` tells whether `JSON.stringify`
or `ws.send` throws inside the `try`. -/
def onCollectors (cpu mem fsSize networkStats : Option JSValue) (sendThrows : Bool) : Run :=
  match cpu, mem, fsSize, networkStats with
  | some a, some b, some c, some d =>
    if sendThrows then ⟨[], .normal⟩
    else
      ⟨[.wsSendJSON (.object [("cpu", a), ("mem", b), ("fsSize", c), ("networkStats", d)])],
        .normal⟩
  | _, _, _, _ => ⟨[], .normal⟩

/-- Lines 533-540, the callback `(err, stream) => ...` of `container.logs`: `ok`
is false when `err` is set. -/
def onLogs (ok : Bool) : Run :=
  if ok then ⟨[.on .streamData, .on .wsCloseDestroyStream], .normal⟩
  else ⟨[.wsClose], .normal⟩

/-! ## Sessions with timers, asynchronous callbacks and resources -/

/-- The state of one session: the listeners registered so far, the interval
timer if one is set and not cleared, the number of processes spawned and not
yet sent `kill()`, the number of `container.logs` calls whose callback has not
run, the number of attached log streams not yet destroyed, whether the `close`
event of the connection has been emitted, and whether the session's process has
exited. -/
structure Session where
  listeners : List Listener
  timer : Option Tick
  processes : Nat
  pendingLogs : Nat
  streams : Nat
  closed : Bool
  exited : Bool

/-- The session `s` with `exited` for whether its process has exited. -/
def Session.withExited (s : Session) (exited : Bool) : Session :=
  { s with exited := exited }

/-- The state before the connection handler runs. -/
def Session.init : Session :=
  { listeners := [], timer := none, processes := 0, pendingLogs := 0, streams := 0,
    closed := false, exited := false }

/-- The change one call makes to the state of its session. -/
def Session.apply (s : Session) : Effect → Session
  | .on l => { s with listeners := s.listeners ++ [l] }
  | .setInterval f _ => { s with timer := some f }
  | .clearInterval => { s with timer := none }
  | .ptySpawn _ _ _ _ _ => { s with processes := s.processes + 1 }
  | .spawn _ _ => { s with processes := s.processes + 1 }
  | .kill => { s with processes := s.processes - 1 }
  | .logs _ => { s with pendingLogs := s.pendingLogs + 1 }
  | .streamDestroy => { s with streams := s.streams - 1 }
  | _ => s

/-- The change a list of calls makes, in order. -/
def Session.applyAll (s : Session) (fx : List Effect) : Session :=
  fx.foldl Session.apply s

/-- The session a connection handler leaves behind. -/
def connect (env : Env) (k : Kind) (req : UpgradeRequest) : Session :=
  Session.init.applyAll (onConnection env k req)

/-- What the runtime delivers to a session: an event for its listeners, the
expiry of its timer, or the completion of an asynchronous call. -/
inductive Input
  /-- An event for the registered listeners. -/
  | event (ev : Event)
  /-- The interval timer fires. -/
  | tick
  /-- The callback of `docker.listContainers` is called. -/
  | listContainersDone (result : Option (List ContainerInfo)) (sendThrows : Bool)
  /-- The four collectors of `sendSystemStats` have settled. -/
  | collectorsDone (cpu mem fsSize networkStats : Option JSValue) (sendThrows : Bool)
  /-- The callback of `container.logs` is called, with a stream when `ok`. -/
  | logsDone (ok : Bool)
  /-- The child process of `spawn` emits `error`: the command could not be
  started. -/
  | childError

/-- Holds for the `close` event of the connection. -/
def Event.isClose : Event → Bool
  | .wsClose => true
  | _ => false

/-- The code that runs for an input.  The `close` event is emitted once; a
timer fires only while it is set; the callback of `container.logs` runs once
per call; an `error` event finds no listener in `server.js`, so Node throws
it. -/
def Session.react (s : Session) : Input → Run
  | .event ev =>
    if s.closed && ev.isClose then ⟨[], .normal⟩ else emit s.listeners s.exited ev
  | .tick =>
    match s.timer with
    | some f => ⟨f.run, .normal⟩
    | none => ⟨[], .normal⟩
  | .listContainersDone result sendThrows => onListContainers result sendThrows
  | .collectorsDone cpu mem fsSize networkStats sendThrows =>
    onCollectors cpu mem fsSize networkStats sendThrows
  | .logsDone ok => if s.pendingLogs = 0 then ⟨[], .normal⟩ else onLogs ok
  | .childError => ⟨[], .throw .Error⟩

/-- The change the input itself makes to the state: the connection is closed
after its `close` event; the process has exited after its exit; a callback of
`container.logs` is no longer pending and, when it hands over a stream, that
stream is attached. -/
def Session.note (s : Session) : Input → Session
  | .event ev =>
    if ev.isClose then { s with closed := true }
    else if ev.isExit then { s with exited := true }
    else s
  | .logsDone ok =>
    if s.pendingLogs = 0 then s
    else { s with pendingLogs := s.pendingLogs - 1,
                  streams := if ok then s.streams + 1 else s.streams }
  | _ => s

/-- One input: the code runs, and its calls change the state. -/
def Session.step (s : Session) (i : Input) : Session × Run :=
  ((s.note i).applyAll (s.react i).effects, s.react i)

/-- A sequence of inputs.  An exception that leaves the code ends the Node
process: the inputs after it are not delivered. -/
def Session.run (s : Session) : List Input → Session × Run
  | [] => (s, ⟨[], .normal⟩)
  | i :: rest =>
    match (s.step i).2.completion with
    | .normal =>
      (((s.step i).1.run rest).1,
        ⟨(s.step i).2.effects ++ ((s.step i).1.run rest).2.effects,
          ((s.step i).1.run rest).2.completion⟩)
    | .throw e => ((s.step i).1, ⟨(s.step i).2.effects, .throw e⟩)

/-- The state after the `close` event of a connection that was open: its close
listeners have run. -/
def Session.closeOf (s : Session) : Session :=
  ({ s with closed := true } : Session).applyAll (emit s.listeners s.exited .wsClose).effects

/-- A connection handler whose spawn call may throw (`spawnThrows`): the calls
made before the spawn, then the exception, which nothing in the handler
catches.  A call that throws is not recorded. -/
def onConnectionRun (env : Env) (k : Kind) (req : UpgradeRequest) (spawnThrows : Bool) : Run :=
  if spawnThrows && (onConnection env k req).any Effect.isSpawn then
    ⟨(onConnection env k req).takeWhile (fun e => !e.isSpawn), .throw .Error⟩
  else ⟨onConnection env k req, .normal⟩

/-- Holds for the calls that leave the state of a session as it is. -/
def Effect.inert : Effect → Bool
  | .on _ => false
  | .setInterval _ _ => false
  | .clearInterval => false
  | .ptySpawn _ _ _ _ _ => false
  | .spawn _ _ => false
  | .kill => false
  | .logs _ => false
  | .streamDestroy => false
  | _ => true

/-- Holds for the calls that release a handle. -/
def Effect.isRelease : Effect → Bool
  | .kill => true
  | .clearInterval => true
  | .streamDestroy => true
  | _ => false

/-- Holds for `stream.destroy()`. -/
def Effect.isStreamDestroy : Effect → Bool
  | .streamDestroy => true
  | _ => false

/-- Holds for `clearInterval`. -/
def Effect.isClearInterval : Effect → Bool
  | .clearInterval => true
  | _ => false

/-- Number of interval timers and processes a session holds: set and not
cleared, spawned and not yet sent `kill()`. -/
def Session.live (s : Session) : Nat :=
  (match s.timer with
   | some _ => 1
   | none => 0) + s.processes

/-- Holds for the `close` event of the connection. -/
def Input.isClose : Input → Bool
  | .event ev => ev.isClose
  | _ => false

/-- Holds for the exit of the session's process. -/
def Input.isExit : Input → Bool
  | .event ev => ev.isExit
  | _ => false

/-- Holds for a completed tick of a poller in which the snapshot failed: the
listing returned an error, a collector rejected, or serialising or sending
threw. -/
def Input.failedTick : Input → Bool
  | .listContainersDone none _ => true
  | .listContainersDone (some _) sendThrows => sendThrows
  | .collectorsDone (some _) (some _) (some _) (some _) sendThrows => sendThrows
  | .collectorsDone _ _ _ _ _ => true
  | _ => false

/-! ## Example requests -/

/-- A request for `/api/network/ping` without query string. -/
def pingWithoutHost : UpgradeRequest :=
  { url := "/api/network/ping", pathname := some "/api/network/ping", host := none,
    handshake := true }

/-- A Linux host on which `docker.getContainer` returns an object. -/
def linuxEnv : Env :=
  { platform := "linux", containerTruthy := fun _ => true }

/-- A request for `/api/shell`. -/
def shellRequest : UpgradeRequest :=
  { url := "/api/shell", pathname := some "/api/shell", host := none, handshake := true }

/-- A request for `/api/docker/shell/abc`. -/
def dockerShellRequest : UpgradeRequest :=
  { url := "/api/docker/shell/abc", pathname := some "/api/docker/shell/abc", host := none,
    handshake := true }

/-- A request for `/api/network/ping?host=10.0.0.1;reboot`. -/
def pingRequest : UpgradeRequest :=
  { url := "/api/network/ping?host=10.0.0.1;reboot", pathname := some "/api/network/ping",
    host := some "10.0.0.1;reboot", handshake := true }

/-- A request for `/api/docker/stats`. -/
def statsRequest : UpgradeRequest :=
  { url := "/api/docker/stats", pathname := some "/api/docker/stats", host := none,
    handshake := true }

/-- A request for `/api/docker/containers/abc/logs?tail=5`: the query string
follows a further path segment. -/
def logsRequest : UpgradeRequest :=
  { url := "/api/docker/containers/abc/logs?tail=5",
    pathname := some "/api/docker/containers/abc/logs", host := none, handshake := true }

/-- A request for `/api/docker/containers/abc?tail=5`: the query string follows
the container id. -/
def logsRequestWithQuery : UpgradeRequest :=
  { url := "/api/docker/containers/abc?tail=5", pathname := some "/api/docker/containers/abc",
    host := none, handshake := true }

/-- A request for `/api/docker/shell/abc?cols=80`. -/
def execRequestWithQuery : UpgradeRequest :=
  { url := "/api/docker/shell/abc?cols=80", pathname := some "/api/docker/shell/abc",
    host := none, handshake := true }

/-- A request for `/api/docker/shell/abc?cwd=/tmp`: the query string contains a
slash. -/
def execRequestWithSlashInQuery : UpgradeRequest :=
  { url := "/api/docker/shell/abc?cwd=/tmp", pathname := some "/api/docker/shell/abc",
    host := none, handshake := true }

/-- A container as the Docker API lists it. -/
def webContainer : ContainerInfo :=
  { Id := .string "4f2a", Names := some ["/web"], Image := .string "nginx",
    State := .string "running", Status := .string "Up 2 hours", Ports := .array [] }

/-! ## Output forwarded to the connection -/

/-- The strings handed to `ws.send`, in order. -/
def sentFrames : List Effect → List String
  | [] => []
  | .wsSend data :: fx => data :: sentFrames fx
  | _ :: fx => sentFrames fx

/-- The output chunk an event carries from the handle of a session of the given
kind: pty output for Shell and Container-Exec, standard output and standard
error of the child for Network-Ping, log stream data for Container-Log-Tail. -/
def Kind.chunk (k : Kind) : Event → Option String
  | .termData chunk => if k = .Shell ∨ k = .ContainerExec then some chunk else none
  | .pingStdout chunk => if k = .NetworkPing then some chunk else none
  | .pingStderr chunk => if k = .NetworkPing then some chunk else none
  | .streamData chunk => if k = .ContainerLog then some chunk else none
  | _ => none

/-! ## The running-containers listing -/

/-- What `sendResponse(res, statusCode, data)` (lines 1020-1023) writes: the
status and the value handed to `JSON.stringify`. -/
structure Response where
  status : Nat
  body : JSValue

/-- Lines 560-563: the object built for one container by
`handleGetRunningContainers`. -/
def simplifyRunning (c : ContainerInfo) : JSValue :=
  .object [("Id", c.Id),
    ("Name", .string
      (match c.Names with
       | none => "(no name)"
       | some names =>
         if names.length > 0 then
           match names[0]? with
           | some first => String.mk (first.data.drop 1)
           | none => "(no name)"
         else "(no name)"))]

/-- Lines 557-568, `handleGetRunningContainers`: `result` is the outcome of
`await docker.listContainers()`, the message of the error when it rejects. -/
def handleGetRunningContainers (result : Except String (List ContainerInfo)) : Response :=
  match result with
  | .ok containers => ⟨200, .array (containers.map simplifyRunning)⟩
  | .error message =>
    ⟨500, .object [("error", .string ("Failed to get running containers: " ++ message))]⟩

/-- The rule for `Name` in the words of the claim: the first entry of `Names`
without its first character when `Names` is present and not empty, the literal
`(no name)` when it is missing or empty. -/
def nameRule (names : Option (List String)) : String :=
  match names with
  | some (first :: _) => String.mk (first.data.tail)
  | _ => "(no name)"

/-! ## Resolving redirects -/

/-- What `handleResolveUrl` reads from a response of `axios.get`. -/
structure HttpResponse where
  /-- The value `response.status`. -/
  status : Nat
  /-- The value `response.headers.location`; `none` when the header is absent. -/
  location : Option String

/-- The network and the `URL` class as `handleResolveUrl` uses them. -/
structure Net where
  /-- The call `axios.get(currentUrl, { maxRedirects: 0, validateStatus: null })`
  of the request with the given number, counted from 0; `none` when its promise
  rejects. -/
  get : Nat → String → Option HttpResponse
  /-- The value `new URL(location, currentUrl).href`; `none` when the constructor
  throws. -/
  resolve : String → String → Option String

/-- The test of line 906,
`response.status >= 300 && response.status < 400 && response.headers.location`:
the location when it holds. -/
def redirectTarget (response : HttpResponse) : Option String :=
  if 300 ≤ response.status ∧ response.status < 400 then
    match response.location with
    | some location => if location = "" then none else some location
    | none => none
  else none

/-- How the body of the `try` of `handleResolveUrl` ends: the number of requests
issued, and `currentUrl` and `hops` after the loop, or `none` when an exception
was caught. -/
structure Resolved where
  requests : Nat
  outcome : Option (String × List String)

/-- The loop of lines 902-910 with `n` iterations left, at `i`, with the current
`currentUrl` and `hops`. -/
def resolveLoop (net : Net) : Nat → Nat → String → List String → Resolved
  | 0, i, currentUrl, hops => ⟨i, some (currentUrl, hops)⟩
  | n + 1, i, currentUrl, hops =>
    match net.get i currentUrl with
    | none => ⟨i + 1, none⟩
    | some response =>
      match redirectTarget response with
      | some location =>
        match net.resolve location currentUrl with
        | none => ⟨i + 1, none⟩
        | some next => resolveLoop net n (i + 1) next (hops ++ [currentUrl])
      | none => ⟨i + 1, some (currentUrl, hops ++ [currentUrl])⟩

/-- Lines 899-916, `handleResolveUrl`: the number of requests issued and the
response sent. -/
def handleResolveUrl (net : Net) (url : String) : Nat × Response :=
  match (resolveLoop net 10 0 url []).outcome with
  | some (finalUrl, hops) =>
    ((resolveLoop net 10 0 url []).requests,
      ⟨200, .object [("finalUrl", .string finalUrl), ("hops", .array (hops.map .string))]⟩)
  | none =>
    ((resolveLoop net 10 0 url []).requests,
      ⟨500, .object [("error", .string "Could not resolve URL.")]⟩)

/-- Each URL of the list after the first is the redirect target of the response
to the request for the URL before it, resolved against that URL. -/
def RedirectChain (net : Net) (hops : List String) : Prop :=
  ∀ (j : Nat) (a b : String), hops[j]? = some a → hops[j + 1]? = some b →
    ∃ response location, net.get j a = some response ∧
      redirectTarget response = some location ∧ net.resolve location a = some b

/-- A network in which every request is answered by a redirect to the malformed
URL `http://[`, which the `URL` constructor rejects. -/
def malformedRedirectNet : Net :=
  { get := fun _ _ => some ⟨302, some "http://["⟩,
    resolve := fun location _ => if location = "http://[" then none else some location }

/-- A network in which `http://a.example/` redirects to `/b` and
`http://a.example/b` answers 200. -/
def oneRedirectNet : Net :=
  { get := fun _ url =>
      if url = "http://a.example/" then some ⟨301, some "/b"⟩ else some ⟨200, none⟩,
    resolve := fun location _ =>
      if location = "/b" then some "http://a.example/b" else some location }

/-! ## The proxy configurator -/

/-- Lines 860-896, `generateNginxConfig`; `ssl` is the truth value of the
argument. -/
def generateNginxConfig (domain target : String) (ssl : Bool) : String :=
  let config := "server \x7b\n    server_name " ++ domain ++
    ";\n\n    location / \x7b\n        proxy_pass " ++ target ++
    ";\n        proxy_set_header Host $host;\n        proxy_set_header X-Real-IP $remote_addr;\n        proxy_set_header X-Forwarded-For $proxy_add_x_forwarded_for;\n        proxy_http_version 1.1;\n        proxy_set_header Upgrade $http_upgrade;\n        proxy_set_header Connection \"upgrade\";\n    \x7d\n"
  let config :=
    if ssl then
      config ++ "\n    listen 443 ssl;\n    ssl_certificate /etc/letsencrypt/live/" ++ domain ++
        "/fullchain.pem;\n    ssl_certificate_key /etc/letsencrypt/live/" ++ domain ++
        "/privkey.pem;\n    include /etc/letsencrypt/options-ssl-nginx.conf;\n    ssl_dhparam /etc/letsencrypt/ssl-dhparams.pem;\n\x7d\nserver \x7b\n    if ($host = " ++ domain ++
        ") \x7b\n        return 301 https://$host$request_uri;\n    \x7d\n\n    listen 80;\n    server_name " ++ domain ++
        ";\n    return 404;\n"
    else config ++ "    listen 80;"
  config ++ "\n\x7d"

/-- The class `\s` of a JavaScript regular expression: white space and line
terminators. -/
def isRegexSpace (c : Char) : Bool :=
  c.toNat == 0x09 || c.toNat == 0x0A || c.toNat == 0x0B || c.toNat == 0x0C ||
  c.toNat == 0x0D || c.toNat == 0x20 || c.toNat == 0xA0 || c.toNat == 0x1680 ||
  (0x2000 ≤ c.toNat && c.toNat ≤ 0x200A) || c.toNat == 0x2028 || c.toNat == 0x2029 ||
  c.toNat == 0x202F || c.toNat == 0x205F || c.toNat == 0x3000 || c.toNat == 0xFEFF

/-- The part `([^;]+);` of the two regular expressions of lines 824-825, matched
at the head of the input: the longest run of characters other than `;`, which
must not be empty and must be followed by `;`; a shorter run is followed by a
character other than `;` and cannot match. -/
def matchGroup (cs : List Char) : Option (List Char) :=
  match cs.dropWhile (fun c => c != ';') with
  | [] => none
  | _ :: _ => if (cs.takeWhile (fun c => c != ';')).isEmpty then none
              else some (cs.takeWhile (fun c => c != ';'))

/-- The part `\s+([^;]+);` after one white space character has been consumed:
the greedy `\s+` first tries to take the next white space character as well and
gives it back when the rest then fails. -/
def matchSpaces : List Char → Option (List Char)
  | [] => matchGroup []
  | c :: cs =>
    if isRegexSpace c then
      match matchSpaces cs with
      | some group => some group
      | none => matchGroup (c :: cs)
    else matchGroup (c :: cs)

/-- The regular expression `name\s+([^;]+);` matched at the head of the input,
the characters of `name` first: the text of group 1. -/
def matchAt : List Char → List Char → Option (List Char)
  | [], [] => none
  | [], c :: cs => if isRegexSpace c then matchSpaces cs else none
  | _ :: _, [] => none
  | n :: name, c :: cs => if n = c then matchAt name cs else none

/-- The call `content.match(/name\s+([^;]+);/)`: group 1 of the leftmost match,
`none` for `null`. -/
def matchFirst (name : List Char) : List Char → Option (List Char)
  | [] => matchAt name []
  | c :: cs =>
    match matchAt name (c :: cs) with
    | some group => some group
    | none => matchFirst name cs

/-- Holds when the text starts with the needle. -/
def startsAt : List Char → List Char → Bool
  | [], _ => true
  | _ :: _, [] => false
  | n :: needle, c :: cs => n == c && startsAt needle cs

/-- The call `content.includes(needle)`. -/
def includes (needle : List Char) : List Char → Bool
  | [] => startsAt needle []
  | c :: cs => startsAt needle (c :: cs) || includes needle cs

/-- The call `text.replace(pattern, replacement)` with a non-empty string
pattern and a replacement without `$`: the first occurrence is replaced. -/
def replaceFirst (pattern replacement : List Char) : List Char → List Char
  | [] => []
  | c :: cs =>
    if startsAt pattern (c :: cs) then replacement ++ (c :: cs).drop pattern.length
    else c :: replaceFirst pattern replacement cs

/-- An entry of the array `handleGetProxyRules` answers with. -/
structure ProxyRule where
  id : String
  domain : String
  target : String
  ssl : Bool

/-- Lines 822-832: the rule read back from one file of `sites-available`. -/
def ruleOfFile (file content : String) : ProxyRule :=
  { id := String.mk (replaceFirst ".conf".data [] (replaceFirst "nemos-".data [] file.data)),
    domain :=
      match matchFirst "server_name".data content.data with
      | some group => String.mk group
      | none => "N/A",
    target :=
      match matchFirst "proxy_pass".data content.data with
      | some group => String.mk group
      | none => "N/A",
    ssl := includes "listen 443 ssl".data content.data }

/-- Lines 820-835, `handleGetProxyRules`: `files` are the names in
`sites-available` with the content of each. -/
def handleGetProxyRules (files : List (String × String)) : List ProxyRule :=
  (files.filter (fun f => startsWith f.1 "nemos-")).map (fun f => ruleOfFile f.1 f.2)

/-- Holds when the name and the text differ at a position both have: the
regular expression cannot match at the head of the text, whatever follows. -/
def mismatchIn : List Char → List Char → Bool
  | n :: name, c :: cs => if n = c then mismatchIn name cs else true
  | _, _ => false

/-- Holds when the name mismatches at every position of the text, within the
text. -/
def mismatchEverywhere (name : List Char) : List Char → Bool
  | [] => true
  | c :: cs => mismatchIn name (c :: cs) && mismatchEverywhere name cs

/-- Holds for a string that is not empty and contains neither `;` nor a
character of the class `\s`. -/
def isToken (s : String) : Bool :=
  !s.data.isEmpty && s.data.all (fun c => c != ';' && !isRegexSpace c)

/-! # Theorems -/

/-! ## Router: prefixes of the table -/

theorem startsWith_iff (s pre : String) : startsWith s pre = true ↔ pre.data <+: s.data := by
  unfold startsWith
  exact List.isPrefixOf_iff_prefix

theorem table_no_nesting :
    ∀ e1 ∈ routerTable, ∀ e2 ∈ routerTable,
      e1.1.data.isPrefixOf e2.1.data = true → e1 = e2 := by
  decide

theorem table_exclusive (p : String) (e1 e2 : String × Kind)
    (h1 : e1 ∈ routerTable) (h2 : e2 ∈ routerTable)
    (m1 : startsWith p e1.1 = true) (m2 : startsWith p e2.1 = true) : e1 = e2 := by
  rw [startsWith_iff] at m1 m2
  rcases Nat.le_total e1.1.data.length e2.1.data.length with h | h
  · exact table_no_nesting e1 h1 e2 h2
      (List.isPrefixOf_iff_prefix.mpr (List.prefix_of_prefix_length_le m1 m2 h))
  · exact (table_no_nesting e2 h2 e1 h1
      (List.isPrefixOf_iff_prefix.mpr (List.prefix_of_prefix_length_le m2 m1 h))).symm

theorem route_eq_firstMatch (p : String) : route p = firstMatch routerTable p := by
  unfold route firstMatch routerTable
  simp only [List.find?]
  repeat' split
  all_goals simp_all

/-! ## Router: which entry matches -/

theorem route_of_mem (p : String) (e : String × Kind) (he : e ∈ routerTable)
    (hm : startsWith p e.1 = true) : route p = some e.2 := by
  rw [route_eq_firstMatch]
  unfold firstMatch
  cases hf : routerTable.find? (fun e => startsWith p e.1) with
  | none =>
    have := List.find?_eq_none.mp hf e he
    simp [hm] at this
  | some e' =>
    have hmem : e' ∈ routerTable := List.mem_of_find?_eq_some hf
    have hpred : startsWith p e'.1 = true := by
      have := List.find?_some hf
      simpa using this
    rw [table_exclusive p e' e hmem he hpred hm]
    rfl

theorem route_none_of_no_match (p : String)
    (hno : ∀ e ∈ routerTable, startsWith p e.1 = false) : route p = none := by
  rw [route_eq_firstMatch]
  unfold firstMatch
  have : routerTable.find? (fun e => startsWith p e.1) = none := by
    apply List.find?_eq_none.mpr
    intro e he
    simp [hno e he]
  rw [this]
  rfl

theorem length_le_one_of_all_eq {α : Type} (l : List α) (hn : l.Nodup)
    (h : ∀ a ∈ l, ∀ b ∈ l, a = b) : l = [] ∨ ∃ a, l = [a] := by
  match l, hn, h with
  | [], _, _ => exact Or.inl rfl
  | [a], _, _ => exact Or.inr ⟨a, rfl⟩
  | a :: b :: t, hn, h =>
    have hab : a = b := h a (by simp) b (by simp)
    subst hab
    simp at hn

theorem matching_small (p : String) :
    routerTable.filter (fun e => startsWith p e.1) = [] ∨
      ∃ e, routerTable.filter (fun e => startsWith p e.1) = [e] := by
  apply length_le_one_of_all_eq
  · exact List.Nodup.filter _ (by decide)
  · intro a ha b hb
    rw [List.mem_filter] at ha hb
    exact table_exclusive p a b ha.1 hb.1 ha.2 hb.2

theorem filter_perm_eq (p : String) (table : List (String × Kind))
    (hperm : table.Perm routerTable) :
    table.filter (fun e => startsWith p e.1) =
      routerTable.filter (fun e => startsWith p e.1) := by
  have hp := List.Perm.filter (fun e : String × Kind => startsWith p e.1) hperm
  rcases matching_small p with h | ⟨e, h⟩
  · rw [h] at hp ⊢
    exact List.Perm.eq_nil hp
  · rw [h] at hp ⊢
    exact List.perm_singleton.mp hp

theorem firstMatch_eq_head_filter (table : List (String × Kind)) (p : String) :
    firstMatch table p = ((table.filter (fun e => startsWith p e.1)).head?).map (·.2) := by
  unfold firstMatch
  rw [List.filter_head?]

theorem longest_eq_head_filter (table : List (String × Kind)) (p : String)
    (h : table.filter (fun e => startsWith p e.1) = [] ∨
      ∃ e, table.filter (fun e => startsWith p e.1) = [e]) :
    longestPrefixMatch table p = firstMatch table p := by
  rw [firstMatch_eq_head_filter]
  unfold longestPrefixMatch
  rcases h with h | ⟨e, h⟩ <;> rw [h] <;> rfl

theorem splitSlash_ne_nil (cs : List Char) : splitSlash cs ≠ [] := by
  induction cs with
  | nil => simp [splitSlash]
  | cons c cs ih =>
    unfold splitSlash
    split
    · simp
    · split
      · simp
      · simp

theorem split_getLast?_ne_none (s : String) : (split s).getLast? ≠ none := by
  unfold split
  intro h
  rw [List.getLast?_eq_none_iff, List.map_eq_nil_iff] at h
  exact splitSlash_ne_nil _ h

/-- C1, as stated, fails: the pathname `/api/network/ping` starts with the
table prefix `/api/network/ping` and is dispatched to the Network-Ping server
alone, but without a `host` parameter the session constructs no handle. -/
theorem C1_counterexample_ping_without_host :
    ("/api/network/ping", Kind.NetworkPing) ∈ routerTable ∧
    pingWithoutHost.pathname = some "/api/network/ping" ∧
    startsWith "/api/network/ping" "/api/network/ping" = true ∧
    dispatched (onUpgrade linuxEnv pingWithoutHost).effects = [Kind.NetworkPing] ∧
    handleCount (onUpgrade linuxEnv pingWithoutHost).effects = 0 := by
  refine ⟨by decide, rfl, by decide, ?_, ?_⟩ <;> rfl

/-- C1, amended: a request whose pathname starts with a table prefix is
dispatched by exactly one `handleUpgrade`, to the kind the table pairs with
that prefix; when the handshake completes, the connection handler constructs at
most one handle, and it constructs none exactly for a Network-Ping request
whose `host` parameter is missing or empty, a Container-Exec request whose URL
has nothing after its last slash, and a Container-Log request for which
`docker.getContainer` gives a falsy value; in those cases it closes the
connection. -/
theorem C1_routed_request_one_kind_at_most_one_handle
    (env : Env) (req : UpgradeRequest) (p : String) (e : String × Kind)
    (hp : req.pathname = some p) (hs : req.handshake = true)
    (he : e ∈ routerTable) (hm : startsWith p e.1 = true) :
    dispatched (onUpgrade env req).effects = [e.2] ∧
    (onUpgrade env req).completion = .normal ∧
    handleCount (onUpgrade env req).effects ≤ 1 ∧
    (handleCount (onUpgrade env req).effects = 0 ↔
      (e.2 = .NetworkPing ∧ (req.host = none ∨ req.host = some "")) ∨
      (e.2 = .ContainerExec ∧ (split req.url).getLast? = some "") ∨
      (e.2 = .ContainerLog ∧ env.containerTruthy ((split req.url)[4]?) = false)) ∧
    (handleCount (onUpgrade env req).effects = 0 →
      Effect.wsClose ∈ (onUpgrade env req).effects) := by
  have hr := route_of_mem p e he hm
  have hu : onUpgrade env req = ⟨.handleUpgrade e.2 :: onConnection env e.2 req, .normal⟩ := by
    simp [onUpgrade, hp, hr, hs]
  rw [hu]
  obtain ⟨pre, k⟩ := e
  simp only
  cases k with
  | ContainerList =>
    simp [onConnection, dockerStatsOnConnection, dispatched, handleCount,
      Effect.constructsHandle, List.countP_cons]
  | ContainerLog =>
    cases hc : env.containerTruthy ((split req.url)[4]?) <;>
    simp [onConnection, dockerLogsOnConnection, dispatched, handleCount,
      Effect.constructsHandle, List.countP_cons, hc]
  | HostMetrics =>
    simp [onConnection, systemStatsOnConnection, dispatched, handleCount,
      Effect.constructsHandle, List.countP_cons]
  | NetworkPing =>
    cases hh : req.host with
    | none =>
      simp [onConnection, networkPingOnConnection, dispatched, handleCount,
        Effect.constructsHandle, List.countP_cons, hh]
    | some h =>
      by_cases hempty : h = "" <;>
      simp [onConnection, networkPingOnConnection, dispatched, handleCount,
        Effect.constructsHandle, List.countP_cons, hh, hempty]
  | Shell =>
    simp [onConnection, shellOnConnection, dispatched, handleCount,
      Effect.constructsHandle, List.countP_cons]
  | ContainerExec =>
    cases hl : (split req.url).getLast? with
    | none => exact absurd hl (split_getLast?_ne_none _)
    | some id =>
      by_cases hempty : id = "" <;>
      simp [onConnection, dockerShellOnConnection, dispatched, handleCount,
        Effect.constructsHandle, List.countP_cons, hl, hempty]

/-- Witness for C1: the request `/api/docker/shell/abc` on a Linux host. -/
theorem C1_witness_docker_shell :
    dispatched (onUpgrade linuxEnv
      ⟨"/api/docker/shell/abc", some "/api/docker/shell/abc", none, true⟩).effects
      = [Kind.ContainerExec] ∧
    handleCount (onUpgrade linuxEnv
      ⟨"/api/docker/shell/abc", some "/api/docker/shell/abc", none, true⟩).effects ≤ 1 :=
  have h := C1_routed_request_one_kind_at_most_one_handle linuxEnv
    ⟨"/api/docker/shell/abc", some "/api/docker/shell/abc", none, true⟩
    "/api/docker/shell/abc" ("/api/docker/shell/", Kind.ContainerExec) rfl rfl
    (by decide) (by decide)
  ⟨h.1, h.2.2.1⟩

/-- C2: when the pathname starts with none of the six table prefixes, the
upgrade listener makes the single call `socket.destroy()` and returns: no
`handleUpgrade`, no connection handler, no handle, no frame. -/
theorem C2_unmatched_path_destroys_socket
    (env : Env) (req : UpgradeRequest) (p : String)
    (hp : req.pathname = some p)
    (hno : ∀ e ∈ routerTable, startsWith p e.1 = false) :
    onUpgrade env req = ⟨[.socketDestroy], .normal⟩ ∧
    dispatched (onUpgrade env req).effects = [] ∧
    handleCount (onUpgrade env req).effects = 0 ∧
    listeners (onUpgrade env req).effects = [] ∧
    (onUpgrade env req).effects.countP Effect.isSend = 0 := by
  have hr := route_none_of_no_match p hno
  have hu : onUpgrade env req = ⟨[.socketDestroy], .normal⟩ := by
    simp [onUpgrade, hp, hr]
  rw [hu]
  simp [dispatched, handleCount, listeners, Effect.constructsHandle, Effect.isSend]

/-- Witness for C2: the request `/api/unknown`. -/
theorem C2_witness_unknown_path :
    onUpgrade linuxEnv ⟨"/api/unknown", some "/api/unknown", none, true⟩
      = ⟨[.socketDestroy], .normal⟩ :=
  (C2_unmatched_path_destroys_socket linuxEnv
    ⟨"/api/unknown", some "/api/unknown", none, true⟩ "/api/unknown" rfl (by decide)).1

/-- C3: for every pathname the if/else chain of the router chooses what the
longest-matching-prefix lookup over the six-entry table chooses (the same kind,
or rejection by both), and a chain testing the six prefixes in any other order
chooses the same. -/
theorem C3_route_is_longest_prefix_in_any_order (pathname : String) :
    route pathname = longestPrefixMatch routerTable pathname ∧
    ∀ table : List (String × Kind), table.Perm routerTable →
      firstMatch table pathname = route pathname ∧
      longestPrefixMatch table pathname = route pathname := by
  have hsmall := matching_small pathname
  refine ⟨?_, ?_⟩
  · rw [longest_eq_head_filter routerTable pathname hsmall, route_eq_firstMatch]
  · intro table hperm
    have hf := filter_perm_eq pathname table hperm
    have h1 : firstMatch table pathname = route pathname := by
      rw [route_eq_firstMatch, firstMatch_eq_head_filter, firstMatch_eq_head_filter, hf]
    refine ⟨h1, ?_⟩
    rw [longest_eq_head_filter table pathname (by rw [hf]; exact hsmall), h1]

/-- Witness for C3: `/api/docker/shell/abc` with the table reversed. -/
theorem C3_witness_reversed_table :
    firstMatch routerTable.reverse "/api/docker/shell/abc" = route "/api/docker/shell/abc" :=
  ((C3_route_is_longest_prefix_in_any_order "/api/docker/shell/abc").2
    routerTable.reverse (List.reverse_perm routerTable)).1

/-! ## The message listener -/

theorem twoPow1075_eq : twoPow1075 = 2 ^ 1075 := by
  norm_num [twoPow1075]

theorem infinityBound_eq : infinityBound = 2 ^ 1024 - 2 ^ 970 := by
  norm_num [infinityBound]

theorem roundsAboveZero_int (c : Int) :
    (JSValue.number c 0).roundsAboveZero = decide (0 < c) := by
  simp only [JSValue.roundsAboveZero, neg_zero, Int.toNat_zero, pow_zero, mul_one]
  by_cases h : 0 < c
  · have hpos : (1 : Int) < twoPow1075 := by decide
    have h1 : 1 < c * twoPow1075 := by nlinarith
    simp [h, h1]
  · simp [h]

theorem roundsBelowInfinity_int (c : Int) :
    (JSValue.number c 0).roundsBelowInfinity = decide (c < infinityBound) := by
  simp [JSValue.roundsBelowInfinity]

theorem termResizeThrows_int (exited : Bool) (c r : Int) :
    termResizeThrows exited (.number c 0) (.number r 0)
      = if 0 < c ∧ c < infinityBound ∧ 0 < r ∧ r < infinityBound ∧ exited = false then none
        else some .Error := by
  unfold termResizeThrows
  rw [roundsAboveZero_int, roundsBelowInfinity_int, roundsAboveZero_int, roundsBelowInfinity_int]
  cases exited <;> simp [and_assoc]

theorem ptyOnMessage_of_parse_error (exited : Bool) (m : String) (e : JSError)
    (h : JSON.parse m = .error e) : ptyOnMessage exited m = ⟨[], .throw e⟩ := by
  simp [ptyOnMessage, ptyOnParsed, h]

theorem listeners_shell (env : Env) :
    listeners (shellOnConnection env) = [.termOnData, .wsMessage, .wsCloseKillTerm] := rfl

theorem listeners_dockerShell (req : UpgradeRequest)
    (h : handleCount (dockerShellOnConnection req) = 1) :
    listeners (dockerShellOnConnection req) = [.termOnData, .wsMessage, .wsCloseKillTerm] := by
  unfold dockerShellOnConnection at h ⊢
  split at h
  · simp [handleCount, Effect.constructsHandle] at h
  · split at h
    · simp [handleCount, Effect.constructsHandle] at h
    · simp [*, listeners]

theorem listeners_pty (env : Env) (req : UpgradeRequest) (k : Kind)
    (hk : k = .Shell ∨ k = .ContainerExec) (h : handleCount (onConnection env k req) = 1) :
    listeners (onConnection env k req) = [.termOnData, .wsMessage, .wsCloseKillTerm] := by
  rcases hk with rfl | rfl
  · exact listeners_shell env
  · exact listeners_dockerShell req h

theorem emit_pty_message (exited : Bool) (m : String) :
    emit [.termOnData, .wsMessage, .wsCloseKillTerm] exited (.wsMessage m)
      = ptyOnMessage exited m := by
  simp only [emit, Listener.run]
  cases h : (ptyOnMessage exited m).completion with
  | normal =>
    simp only [List.append_nil]
    rw [← h]
  | throw e =>
    simp only
    rw [← h]

theorem emit_pty_close (exited : Bool) :
    emit [.termOnData, .wsMessage, .wsCloseKillTerm] exited .wsClose = ⟨[.kill], .normal⟩ := rfl

theorem runEvents_cons_of_throw (ls : List Listener) (ev : Event) (evs : List Event)
    (e : JSError) (h : emit ls false ev = ⟨[], .throw e⟩) :
    runEvents ls (ev :: evs) = ⟨[], .throw e⟩ := by
  simp [runEvents, runEventsFrom, h]

theorem runEvents_exit_cons_of_throw (ls : List Listener) (ev : Event) (evs : List Event)
    (e : JSError) (hexit : emit ls false .processExit = ⟨[], .normal⟩)
    (h : emit ls true ev = ⟨[], .throw e⟩) :
    runEvents ls (.processExit :: ev :: evs) = ⟨[], .throw e⟩ := by
  simp [runEvents, runEventsFrom, hexit, h, Event.isExit]

/-- C4: on a message that is not valid JSON the `message` listener of the
Shell and Container-Exec sessions makes no call at all (no write, resize, kill
or close), but it does not return: the `SyntaxError` of `JSON.parse` leaves the
listener, and no later event of the session is handled. -/
theorem C4_invalid_json_leaves_listener_by_exception
    (env : Env) (req : UpgradeRequest) (k : Kind) (m : String) (e : JSError)
    (evs : List Event) (exited : Bool)
    (hk : k = .Shell ∨ k = .ContainerExec)
    (hspawn : handleCount (onConnection env k req) = 1)
    (hparse : JSON.parse m = .error e) :
    ptyOnMessage exited m = ⟨[], .throw e⟩ ∧
    emit (listeners (onConnection env k req)) exited (.wsMessage m) = ⟨[], .throw e⟩ ∧
    runEvents (listeners (onConnection env k req)) (.wsMessage m :: evs) = ⟨[], .throw e⟩ := by
  have hm := ptyOnMessage_of_parse_error exited m e hparse
  have he : ∀ x, emit (listeners (onConnection env k req)) x (.wsMessage m) = ⟨[], .throw e⟩ := by
    intro x
    rw [listeners_pty env req k hk hspawn, emit_pty_message,
      ptyOnMessage_of_parse_error x m e hparse]
  exact ⟨hm, he exited, runEvents_cons_of_throw _ _ evs e (he false)⟩

/-- Failing input for C4: the frame `{` on a Shell session. -/
theorem C4_witness_open_brace :
    JSON.parse "\x7b" = .error .SyntaxError ∧
    runEvents (listeners (onConnection linuxEnv .Shell shellRequest))
      [.wsMessage "\x7b", .wsClose] = ⟨[], .throw .SyntaxError⟩ :=
  ⟨rfl, (C4_invalid_json_leaves_listener_by_exception linuxEnv shellRequest .Shell "\x7b"
    .SyntaxError [.wsClose] false (Or.inl rfl) rfl rfl).2.2⟩

/-- C5: a message that is valid JSON and matches neither Control Message shape
is not dropped when it is `null`, when its `type` is `"input"` and its `data`
is not a string, or when its `type` is `"resize"` and its `data` is absent or
`null`: the listener of a Shell or Container-Exec session then makes no call,
but it does not return either.  A `TypeError` leaves it (from destructuring
`null`, from `term.write`, from reading `data.cols`), nothing catches it, and no
later event of the session is handled. -/
theorem C5_unmatched_shape_leaves_listener_by_exception
    (env : Env) (req : UpgradeRequest) (k : Kind) (m : String) (v : JSValue)
    (evs : List Event) (exited : Bool)
    (hk : k = .Shell ∨ k = .ContainerExec)
    (hspawn : handleCount (onConnection env k req) = 1)
    (hparse : JSON.parse m = .ok v)
    (hbad : v.isNullish = true ∨
      ((v.get "type").strictEq "input" = true ∧ ∀ s, v.get "data" ≠ .string s) ∨
      ((v.get "type").strictEq "resize" = true ∧ (v.get "data").isNullish = true)) :
    isControlMessage v = false ∧
    ptyOnMessage exited m = ⟨[], .throw .TypeError⟩ ∧
    emit (listeners (onConnection env k req)) exited (.wsMessage m)
      = ⟨[], .throw .TypeError⟩ ∧
    runEvents (listeners (onConnection env k req)) (.wsMessage m :: evs)
      = ⟨[], .throw .TypeError⟩ := by
  have hm : ∀ x, ptyOnMessage x m = ⟨[], .throw .TypeError⟩ := by
    intro x
    rcases hbad with h | ⟨ht, hd⟩ | ⟨ht, hd⟩
    · simp [ptyOnMessage, ptyOnParsed, hparse, h]
    · have hnn : v.isNullish = false := by
        cases v <;> simp_all [JSValue.get, JSValue.isNullish, JSValue.strictEq]
      have hw : termWriteThrows (v.get "data") = some .TypeError := by
        cases hdd : v.get "data" <;> simp_all [termWriteThrows]
      simp [ptyOnMessage, ptyOnParsed, hparse, hnn, ht, hw]
    · have hnn : v.isNullish = false := by
        cases v <;> simp_all [JSValue.get, JSValue.isNullish, JSValue.strictEq]
      have h1 : (v.get "type").strictEq "input" = false := by
        cases hty : v.get "type" <;> simp_all [JSValue.strictEq]
      simp [ptyOnMessage, ptyOnParsed, hparse, hnn, ht, h1, hd]
  have he : ∀ x, emit (listeners (onConnection env k req)) x (.wsMessage m)
      = ⟨[], .throw .TypeError⟩ := by
    intro x
    rw [listeners_pty env req k hk hspawn, emit_pty_message, hm x]
  refine ⟨?_, hm exited, he exited, runEvents_cons_of_throw _ _ evs _ (he false)⟩
  rcases hbad with h | ⟨ht, hd⟩ | ⟨ht, hd⟩
  · cases v <;> simp_all [JSValue.isNullish, isControlMessage]
  · cases v with
    | object props =>
      have h2 : ((JSValue.object props).get "type").strictEq "resize" = false := by
        cases hty : (JSValue.object props).get "type" <;> simp_all [JSValue.strictEq]
      cases hdd : (JSValue.object props).get "data" <;>
        simp_all [isControlMessage]
    | _ => rfl
  · cases v with
    | object props =>
      have h1 : ((JSValue.object props).get "type").strictEq "input" = false := by
        cases hty : (JSValue.object props).get "type" <;> simp_all [JSValue.strictEq]
      cases hdd : (JSValue.object props).get "data" <;>
        simp_all [isControlMessage, JSValue.isNullish]
    | _ => rfl

/-- Failing inputs for C5: the three examples of the claim, `null`,
`{"type":"resize"}` and `{"type":"input","data":5}`, each as the first frame of
a Shell session that is closed afterwards: no call is made, not even the
`kill()` of the close. -/
theorem C5_witness_three_examples :
    runEvents (listeners (onConnection linuxEnv .Shell shellRequest))
      [.wsMessage "null", .wsClose] = ⟨[], .throw .TypeError⟩ ∧
    runEvents (listeners (onConnection linuxEnv .Shell shellRequest))
      [.wsMessage "\x7b\"type\":\"resize\"\x7d", .wsClose] = ⟨[], .throw .TypeError⟩ ∧
    runEvents (listeners (onConnection linuxEnv .Shell shellRequest))
      [.wsMessage "\x7b\"type\":\"input\",\"data\":5\x7d", .wsClose]
      = ⟨[], .throw .TypeError⟩ :=
  ⟨(C5_unmatched_shape_leaves_listener_by_exception linuxEnv shellRequest .Shell "null" .null
      [.wsClose] false (Or.inl rfl) rfl rfl (Or.inl rfl)).2.2.2,
    (C5_unmatched_shape_leaves_listener_by_exception linuxEnv shellRequest .Shell
      "\x7b\"type\":\"resize\"\x7d" (.object [("type", .string "resize")])
      [.wsClose] false (Or.inl rfl) rfl rfl (Or.inr (Or.inr ⟨by decide, rfl⟩))).2.2.2,
    (C5_unmatched_shape_leaves_listener_by_exception linuxEnv shellRequest .Shell
      "\x7b\"type\":\"input\",\"data\":5\x7d"
      (.object [("type", .string "input"), ("data", .number 5 0)])
      [.wsClose] false (Or.inl rfl) rfl rfl
      (Or.inr (Or.inl ⟨by decide, by intro s h; cases h⟩))).2.2.2⟩

/-- C6: a message that parses to an object with `type` the string `"input"` and
`data` a string `s` makes the listener of a Shell or Container-Exec session call
`term.write(s)` once, with `s` as parsed, and nothing else. -/
theorem C6_input_message_is_written_once
    (env : Env) (req : UpgradeRequest) (k : Kind) (m s : String) (v : JSValue)
    (exited : Bool)
    (hk : k = .Shell ∨ k = .ContainerExec)
    (hspawn : handleCount (onConnection env k req) = 1)
    (hparse : JSON.parse m = .ok v)
    (htype : v.get "type" = .string "input") (hdata : v.get "data" = .string s) :
    emit (listeners (onConnection env k req)) exited (.wsMessage m)
      = ⟨[.termWrite (.string s)], .normal⟩ := by
  rw [listeners_pty env req k hk hspawn, emit_pty_message]
  have hnn : v.isNullish = false := by
    cases v <;> simp_all [JSValue.get, JSValue.isNullish]
  simp [ptyOnMessage, ptyOnParsed, termWriteThrows, hparse, hnn, htype, hdata, JSValue.strictEq]

/-- Witness for C6: the frame `{"type":"input","data":"echo hi\n"}` on a Shell session. -/
theorem C6_witness_echo :
    emit (listeners (onConnection linuxEnv .Shell shellRequest)) false
      (.wsMessage "\x7b\"type\":\"input\",\"data\":\"echo hi\\n\"\x7d")
      = ⟨[.termWrite (.string "echo hi\n")], .normal⟩ :=
  C6_input_message_is_written_once linuxEnv shellRequest .Shell
    "\x7b\"type\":\"input\",\"data\":\"echo hi\\n\"\x7d" "echo hi\n"
    (.object [("type", .string "input"), ("data", .string "echo hi\n")]) false
    (Or.inl rfl) rfl rfl rfl rfl

theorem ptyOnMessage_resize_int (exited : Bool) (m : String) (v : JSValue) (c r : Int)
    (hparse : JSON.parse m = .ok v)
    (htype : v.get "type" = .string "resize")
    (hcols : (v.get "data").get "cols" = .number c 0)
    (hrows : (v.get "data").get "rows" = .number r 0) :
    ptyOnMessage exited m
      = if 0 < c ∧ c < infinityBound ∧ 0 < r ∧ r < infinityBound ∧ exited = false then
          ⟨[.termResize (.number c 0) (.number r 0)], .normal⟩
        else ⟨[], .throw .Error⟩ := by
  have hnn : v.isNullish = false := by
    cases v <;> simp_all [JSValue.get, JSValue.isNullish]
  have hdn : (v.get "data").isNullish = false := by
    cases hd : v.get "data" <;> simp_all [JSValue.get, JSValue.isNullish]
  have h1 : (JSValue.string "resize").strictEq "input" = false := by decide
  have h2 : (JSValue.string "resize").strictEq "resize" = true := by decide
  simp only [ptyOnMessage, ptyOnParsed, hparse, hnn, hdn, htype, hcols, hrows,
    termResizeThrows_int, h1, h2, Bool.false_eq_true, if_false, if_true]
  by_cases hgood : 0 < c ∧ c < infinityBound ∧ 0 < r ∧ r < infinityBound ∧ exited = false
  · rw [if_pos hgood, if_pos hgood]
  · rw [if_neg hgood, if_neg hgood]

/-- C7: a message that parses to an object with `type` the string `"resize"`
and `data` an object whose `cols` and `rows` are the integers `c` and `r` makes
the listener of a Shell or Container-Exec session call `term.resize(c, r)`
once, columns first, and nothing else (no write, no kill, no spawn) when `c` and
`r` are above zero, their doubles are finite and the process of the pty has not
exited.  In every other case `term.resize` throws: no call takes effect, the
`Error` leaves the listener, nothing catches it, and no later event of the
session is handled.  That is so for a size that is not above zero as the
first frame of a session, and for every size once the process has exited. -/
theorem C7_resize_throws_unless_sizes_positive_and_process_runs
    (env : Env) (req : UpgradeRequest) (k : Kind) (m : String) (v : JSValue) (c r : Int)
    (exited : Bool) (evs : List Event)
    (hk : k = .Shell ∨ k = .ContainerExec)
    (hspawn : handleCount (onConnection env k req) = 1)
    (hparse : JSON.parse m = .ok v)
    (htype : v.get "type" = .string "resize")
    (hcols : (v.get "data").get "cols" = .number c 0)
    (hrows : (v.get "data").get "rows" = .number r 0) :
    ((0 < c ∧ c < infinityBound ∧ 0 < r ∧ r < infinityBound ∧ exited = false) →
      emit (listeners (onConnection env k req)) exited (.wsMessage m)
        = ⟨[.termResize (.number c 0) (.number r 0)], .normal⟩) ∧
    (¬ (0 < c ∧ c < infinityBound ∧ 0 < r ∧ r < infinityBound ∧ exited = false) →
      emit (listeners (onConnection env k req)) exited (.wsMessage m)
        = ⟨[], .throw .Error⟩) ∧
    (¬ (0 < c ∧ c < infinityBound ∧ 0 < r ∧ r < infinityBound) →
      runEvents (listeners (onConnection env k req)) (.wsMessage m :: evs)
        = ⟨[], .throw .Error⟩) ∧
    runEvents (listeners (onConnection env k req)) (.processExit :: .wsMessage m :: evs)
      = ⟨[], .throw .Error⟩ := by
  have he : ∀ x, emit (listeners (onConnection env k req)) x (.wsMessage m)
      = if 0 < c ∧ c < infinityBound ∧ 0 < r ∧ r < infinityBound ∧ x = false then
          ⟨[.termResize (.number c 0) (.number r 0)], .normal⟩
        else ⟨[], .throw .Error⟩ := by
    intro x
    rw [listeners_pty env req k hk hspawn, emit_pty_message,
      ptyOnMessage_resize_int x m v c r hparse htype hcols hrows]
  refine ⟨?_, ?_, ?_, ?_⟩
  · intro h
    rw [he, if_pos h]
  · intro h
    rw [he, if_neg h]
  · intro h
    apply runEvents_cons_of_throw
    rw [he, if_neg (fun hh => h ⟨hh.1, hh.2.1, hh.2.2.1, hh.2.2.2.1⟩)]
  · apply runEvents_exit_cons_of_throw
    · rw [listeners_pty env req k hk hspawn]
      rfl
    · rw [he, if_neg (by simp)]

/-- Failing inputs for C7 on a Container-Exec session for container `abc`: the
frame `{"type":"resize","data":{"cols":0,"rows":-1}}`, and the frame
`{"type":"resize","data":{"cols":120,"rows":40}}` after the exit of the process;
in both sessions the close that follows calls no `kill()`.  While the process
runs, the second frame resizes the pty to 120 by 40. -/
theorem C7_witness_resize_0_and_resize_after_exit :
    runEvents (listeners (onConnection linuxEnv .ContainerExec dockerShellRequest))
      [.wsMessage "\x7b\"type\":\"resize\",\"data\":\x7b\"cols\":0,\"rows\":-1\x7d\x7d", .wsClose]
      = ⟨[], .throw .Error⟩ ∧
    runEvents (listeners (onConnection linuxEnv .ContainerExec dockerShellRequest))
      [.processExit,
        .wsMessage "\x7b\"type\":\"resize\",\"data\":\x7b\"cols\":120,\"rows\":40\x7d\x7d",
        .wsClose]
      = ⟨[], .throw .Error⟩ ∧
    emit (listeners (onConnection linuxEnv .ContainerExec dockerShellRequest)) false
      (.wsMessage "\x7b\"type\":\"resize\",\"data\":\x7b\"cols\":120,\"rows\":40\x7d\x7d")
      = ⟨[.termResize (.number 120 0) (.number 40 0)], .normal⟩ :=
  ⟨(C7_resize_throws_unless_sizes_positive_and_process_runs linuxEnv dockerShellRequest
      .ContainerExec "\x7b\"type\":\"resize\",\"data\":\x7b\"cols\":0,\"rows\":-1\x7d\x7d"
      (.object [("type", .string "resize"),
        ("data", .object [("cols", .number 0 0), ("rows", .number (-1) 0)])])
      0 (-1) false [.wsClose] (Or.inr rfl) (by decide) rfl rfl rfl rfl).2.2.1 (by decide),
    (C7_resize_throws_unless_sizes_positive_and_process_runs linuxEnv dockerShellRequest
      .ContainerExec "\x7b\"type\":\"resize\",\"data\":\x7b\"cols\":120,\"rows\":40\x7d\x7d"
      (.object [("type", .string "resize"),
        ("data", .object [("cols", .number 120 0), ("rows", .number 40 0)])])
      120 40 false [.wsClose] (Or.inr rfl) (by decide) rfl rfl rfl rfl).2.2.2,
    (C7_resize_throws_unless_sizes_positive_and_process_runs linuxEnv dockerShellRequest
      .ContainerExec "\x7b\"type\":\"resize\",\"data\":\x7b\"cols\":120,\"rows\":40\x7d\x7d"
      (.object [("type", .string "resize"),
        ("data", .object [("cols", .number 120 0), ("rows", .number 40 0)])])
      120 40 false [] (Or.inr rfl) (by decide) rfl rfl rfl rfl).1 (by decide)⟩

/-! ## Sequences of events -/

theorem emit_nil (exited : Bool) (ev : Event) : emit [] exited ev = ⟨[], .normal⟩ := rfl

theorem runEventsFrom_no_listeners (exited : Bool) (evs : List Event) :
    runEventsFrom [] exited evs = ⟨[], .normal⟩ := by
  induction evs generalizing exited with
  | nil => rfl
  | cons ev evs ih => simp [runEventsFrom, emit_nil, ih]

theorem runEvents_no_listeners (evs : List Event) : runEvents [] evs = ⟨[], .normal⟩ :=
  runEventsFrom_no_listeners false evs

theorem runEventsFrom_append (ls : List Listener) (exited : Bool) (evs more : List Event)
    (h : (runEventsFrom ls exited evs).completion = .normal) :
    runEventsFrom ls exited (evs ++ more)
      = ⟨(runEventsFrom ls exited evs).effects
            ++ (runEventsFrom ls (exited || evs.any Event.isExit) more).effects,
          (runEventsFrom ls (exited || evs.any Event.isExit) more).completion⟩ := by
  induction evs generalizing exited with
  | nil => simp [runEventsFrom]
  | cons ev evs ih =>
    simp only [List.cons_append, runEventsFrom] at h ⊢
    cases hc : (emit ls exited ev).completion with
    | normal =>
      rw [hc] at h
      simp only [List.append_eq] at h ⊢
      rw [ih _ h]
      simp [Bool.or_assoc]
    | throw e =>
      rw [hc] at h
      simp at h

theorem runEventsFrom_append_of_throw (ls : List Listener) (exited : Bool)
    (evs more : List Event) (e : JSError)
    (h : (runEventsFrom ls exited evs).completion = .throw e) :
    runEventsFrom ls exited (evs ++ more) = runEventsFrom ls exited evs := by
  induction evs generalizing exited with
  | nil => simp [runEventsFrom] at h
  | cons ev evs ih =>
    simp only [List.cons_append, runEventsFrom] at h ⊢
    cases hc : (emit ls exited ev).completion with
    | normal =>
      rw [hc] at h
      simp only [List.append_eq] at h ⊢
      rw [ih _ h]
    | throw e1 => rfl

theorem emit_ping (exited : Bool) (ev : Event) :
    emit [.pingStdoutData, .pingStderrData, .wsCloseKillPing] exited ev =
      match ev with
      | .pingStdout chunk => ⟨[.wsSend chunk], .normal⟩
      | .pingStderr chunk => ⟨[.wsSend chunk], .normal⟩
      | .wsClose => ⟨[.kill], .normal⟩
      | _ => ⟨[], .normal⟩ := by
  cases ev <;> rfl

theorem runEventsFrom_ping_no_spawn (exited : Bool) (evs : List Event) :
    (runEventsFrom [.pingStdoutData, .pingStderrData, .wsCloseKillPing] exited evs).completion
      = .normal ∧
    (runEventsFrom [.pingStdoutData, .pingStderrData, .wsCloseKillPing] exited evs).effects.countP
      Effect.isSpawn = 0 := by
  induction evs generalizing exited with
  | nil => simp [runEventsFrom]
  | cons ev evs ih =>
    simp only [runEventsFrom, emit_ping]
    cases ev <;> simp [(ih _).1, (ih _).2, List.countP_cons, Effect.isSpawn]

theorem runEvents_ping_no_spawn (evs : List Event) :
    (runEvents [.pingStdoutData, .pingStderrData, .wsCloseKillPing] evs).completion = .normal ∧
    (runEvents [.pingStdoutData, .pingStderrData, .wsCloseKillPing] evs).effects.countP
      Effect.isSpawn = 0 :=
  runEventsFrom_ping_no_spawn false evs

/-- C8: a Network-Ping connection whose `host` parameter is missing or empty
makes the single call `ws.close()`: no process is spawned, no listener is
registered, and no event delivered afterwards sends a frame or makes any other
call. -/
theorem C8_ping_without_host_closes_at_once
    (req : UpgradeRequest) (evs : List Event)
    (hhost : req.host = none ∨ req.host = some "") :
    networkPingOnConnection req = [.wsClose] ∧
    handleCount (networkPingOnConnection req) = 0 ∧
    (networkPingOnConnection req).countP Effect.isSend = 0 ∧
    runEvents (listeners (networkPingOnConnection req)) evs = ⟨[], .normal⟩ := by
  have h : networkPingOnConnection req = [.wsClose] := by
    rcases hhost with h | h <;> simp [networkPingOnConnection, h]
  rw [h]
  refine ⟨rfl, rfl, rfl, ?_⟩
  exact runEvents_no_listeners evs

/-- Witness for C8: `/api/network/ping` without query string, then output of
some process and the close of the connection. -/
theorem C8_witness_no_query :
    networkPingOnConnection pingWithoutHost = [.wsClose] ∧
    runEvents (listeners (networkPingOnConnection pingWithoutHost))
      [.pingStdout "PING", .wsClose] = ⟨[], .normal⟩ :=
  have h := C8_ping_without_host_closes_at_once pingWithoutHost
    [.pingStdout "PING", .wsClose] (Or.inl rfl)
  ⟨h.1, h.2.2.2⟩

/-- C9: a Network-Ping connection with a non-empty `host` parameter `h` spawns
one process, by `spawn('ping', [h])` with `h` as the only argument and no
shell option; the close of the connection calls `kill()` on it and nothing
else; and no event of the session spawns another process. -/
theorem C9_ping_spawns_once_and_kills_on_close
    (req : UpgradeRequest) (h : String) (evs : List Event) (exited : Bool)
    (hhost : req.host = some h) (hne : h ≠ "") :
    networkPingOnConnection req
      = [.spawn "ping" [h], .on .pingStdoutData, .on .pingStderrData, .on .wsCloseKillPing] ∧
    (networkPingOnConnection req).countP Effect.isSpawn = 1 ∧
    emit (listeners (networkPingOnConnection req)) exited .wsClose = ⟨[.kill], .normal⟩ ∧
    (runEvents (listeners (networkPingOnConnection req)) evs).effects.countP Effect.isSpawn
      = 0 := by
  have hc : networkPingOnConnection req
      = [.spawn "ping" [h], .on .pingStdoutData, .on .pingStderrData, .on .wsCloseKillPing] := by
    simp [networkPingOnConnection, hhost, hne]
  rw [hc]
  refine ⟨rfl, rfl, rfl, ?_⟩
  exact (runEvents_ping_no_spawn evs).2

/-- Witness for C9: `/api/network/ping?host=10.0.0.1;reboot`. -/
theorem C9_witness_host_with_semicolon :
    networkPingOnConnection pingRequest
      = [.spawn "ping" ["10.0.0.1;reboot"], .on .pingStdoutData, .on .pingStderrData,
          .on .wsCloseKillPing] ∧
    emit (listeners (networkPingOnConnection pingRequest)) false .wsClose
      = ⟨[.kill], .normal⟩ :=
  have h := C9_ping_spawns_once_and_kills_on_close pingRequest "10.0.0.1;reboot"
    [] false rfl (by decide)
  ⟨h.1, h.2.2.1⟩

theorem ptyOnMessage_no_kill (exited : Bool) (m : String) :
    (ptyOnMessage exited m).effects.countP Effect.isKill = 0 := by
  unfold ptyOnMessage ptyOnParsed
  split
  · rfl
  · split
    · rfl
    · simp only
      split
      · split <;> rfl
      · split
        · split
          · rfl
          · split <;> rfl
        · rfl

theorem emit_pty_no_kill (exited : Bool) (ev : Event) (hclose : ev ≠ .wsClose) :
    (emit [.termOnData, .wsMessage, .wsCloseKillTerm] exited ev).effects.countP Effect.isKill
      = 0 := by
  cases ev with
  | wsClose => exact absurd rfl hclose
  | wsMessage m => rw [emit_pty_message, ptyOnMessage_no_kill]
  | _ => rfl

theorem runEventsFrom_pty_no_kill (exited : Bool) (evs : List Event)
    (hev : ∀ ev ∈ evs, ev ≠ .wsClose) :
    (runEventsFrom [.termOnData, .wsMessage, .wsCloseKillTerm] exited evs).effects.countP
      Effect.isKill = 0 := by
  induction evs generalizing exited with
  | nil => rfl
  | cons ev evs ih =>
    have ih' := ih (exited || ev.isExit) (fun x hx => hev x (List.mem_cons_of_mem _ hx))
    have hhead := emit_pty_no_kill exited ev (hev ev (List.mem_cons_self _ _))
    simp only [runEventsFrom]
    cases hc : (emit [.termOnData, .wsMessage, .wsCloseKillTerm] exited ev).completion with
    | normal =>
      simp only
      rw [List.countP_append, hhead, ih']
    | throw e =>
      simp only
      exact hhead

/-- C10: on a Shell or Container-Exec session that spawned its process, for
every sequence of events other than the close, followed by the close of the
connection: no `kill()` is called before the close; when every listener
returns on these events, the close calls `kill()` as the last call of the
session, exactly once in all; when an exception leaves a listener, as it does
on a resize message after the exit of the process or with a size that is not
above zero, nothing catches it and the close is not handled, so that `kill()` is
never called. -/
theorem C10_kill_once_at_close_unless_a_listener_throws
    (env : Env) (req : UpgradeRequest) (k : Kind) (evs : List Event)
    (hk : k = .Shell ∨ k = .ContainerExec)
    (hspawn : handleCount (onConnection env k req) = 1)
    (hev : ∀ ev ∈ evs, ev ≠ .wsClose) :
    (runEvents (listeners (onConnection env k req)) evs).effects.countP Effect.isKill = 0 ∧
    ((runEvents (listeners (onConnection env k req)) evs).completion = .normal →
      runEvents (listeners (onConnection env k req)) (evs ++ [.wsClose])
        = ⟨(runEvents (listeners (onConnection env k req)) evs).effects ++ [.kill], .normal⟩ ∧
      (runEvents (listeners (onConnection env k req)) (evs ++ [.wsClose])).effects.countP
        Effect.isKill = 1) ∧
    (∀ e, (runEvents (listeners (onConnection env k req)) evs).completion = .throw e →
      runEvents (listeners (onConnection env k req)) (evs ++ [.wsClose])
        = runEvents (listeners (onConnection env k req)) evs ∧
      (runEvents (listeners (onConnection env k req)) (evs ++ [.wsClose])).effects.countP
        Effect.isKill = 0) := by
  rw [listeners_pty env req k hk hspawn]
  have hb : (runEvents [.termOnData, .wsMessage, .wsCloseKillTerm] evs).effects.countP
      Effect.isKill = 0 := runEventsFrom_pty_no_kill false evs hev
  refine ⟨hb, ?_, ?_⟩
  · intro hret
    have happ : runEvents [.termOnData, .wsMessage, .wsCloseKillTerm] (evs ++ [.wsClose])
        = ⟨(runEvents [.termOnData, .wsMessage, .wsCloseKillTerm] evs).effects ++ [.kill],
            .normal⟩ := by
      unfold runEvents at hret ⊢
      rw [runEventsFrom_append _ _ _ _ hret]
      simp [runEventsFrom, emit_pty_close]
    rw [happ]
    refine ⟨rfl, ?_⟩
    simp only [List.countP_append, hb]
    rfl
  · intro e hthrow
    have happ : runEvents [.termOnData, .wsMessage, .wsCloseKillTerm] (evs ++ [.wsClose])
        = runEvents [.termOnData, .wsMessage, .wsCloseKillTerm] evs := by
      unfold runEvents at hthrow ⊢
      exact runEventsFrom_append_of_throw _ _ _ _ e hthrow
    rw [happ]
    exact ⟨rfl, hb⟩

/-- Failing input for C10: a Shell session with output, the input message
`exit`, the exit of the shell, a resize message to 120 by 40, then the close.
The resize throws, and `kill()` is not called.  Without the exit of the shell
every listener returns and the close calls `kill()` last. -/
theorem C10_witness_resize_after_exit :
    runEvents (listeners (onConnection linuxEnv .Shell shellRequest))
      ([.termData "$ ", .wsMessage "\x7b\"type\":\"input\",\"data\":\"exit\\n\"\x7d",
        .processExit,
        .wsMessage "\x7b\"type\":\"resize\",\"data\":\x7b\"cols\":120,\"rows\":40\x7d\x7d"]
        ++ [.wsClose])
      = ⟨[.wsSend "$ ", .termWrite (.string "exit\n")], .throw .Error⟩ ∧
    (runEvents (listeners (onConnection linuxEnv .Shell shellRequest))
      ([.termData "$ ", .wsMessage "\x7b\"type\":\"input\",\"data\":\"exit\\n\"\x7d",
        .processExit,
        .wsMessage "\x7b\"type\":\"resize\",\"data\":\x7b\"cols\":120,\"rows\":40\x7d\x7d"]
        ++ [.wsClose])).effects.countP Effect.isKill = 0 ∧
    runEvents (listeners (onConnection linuxEnv .Shell shellRequest))
      ([.termData "$ ", .wsMessage "\x7b\"type\":\"input\",\"data\":\"ls\\n\"\x7d",
        .wsMessage "\x7b\"type\":\"resize\",\"data\":\x7b\"cols\":120,\"rows\":40\x7d\x7d"]
        ++ [.wsClose])
      = ⟨[.wsSend "$ ", .termWrite (.string "ls\n"),
          .termResize (.number 120 0) (.number 40 0), .kill], .normal⟩ :=
  have h := (C10_kill_once_at_close_unless_a_listener_throws linuxEnv shellRequest .Shell
    [.termData "$ ", .wsMessage "\x7b\"type\":\"input\",\"data\":\"exit\\n\"\x7d",
      .processExit,
      .wsMessage "\x7b\"type\":\"resize\",\"data\":\x7b\"cols\":120,\"rows\":40\x7d\x7d"]
    (Or.inl rfl) rfl (by simp)).2.2 .Error rfl
  have g := ((C10_kill_once_at_close_unless_a_listener_throws linuxEnv shellRequest .Shell
    [.termData "$ ", .wsMessage "\x7b\"type\":\"input\",\"data\":\"ls\\n\"\x7d",
      .wsMessage "\x7b\"type\":\"resize\",\"data\":\x7b\"cols\":120,\"rows\":40\x7d\x7d"]
    (Or.inl rfl) rfl (by simp)).2.1 rfl).1
  ⟨h.1.trans rfl, h.2, g.trans rfl⟩

/-! ## Sessions: which calls change the state -/

theorem applyAll_nil (s : Session) : s.applyAll [] = s := rfl

theorem applyAll_cons (s : Session) (e : Effect) (fx : List Effect) :
    s.applyAll (e :: fx) = (s.apply e).applyAll fx := rfl

theorem apply_inert (s : Session) (e : Effect) (h : e.inert = true) : s.apply e = s := by
  cases e <;> first | rfl | simp [Effect.inert] at h

theorem applyAll_inert (s : Session) (fx : List Effect)
    (h : ∀ e ∈ fx, e.inert = true) : s.applyAll fx = s := by
  induction fx with
  | nil => rfl
  | cons e fx ih =>
    rw [applyAll_cons, apply_inert s e (h e (List.mem_cons_self _ _))]
    exact ih (fun x hx => h x (List.mem_cons_of_mem _ hx))

theorem withExited_withExited (s : Session) (x y : Bool) :
    (s.withExited x).withExited y = s.withExited y := rfl

theorem apply_withExited (s : Session) (x : Bool) (e : Effect) :
    (s.withExited x).apply e = (s.apply e).withExited x := by
  cases e <;> rfl

theorem applyAll_withExited (s : Session) (x : Bool) (fx : List Effect) :
    (s.withExited x).applyAll fx = (s.applyAll fx).withExited x := by
  induction fx generalizing s with
  | nil => rfl
  | cons e fx ih => rw [applyAll_cons, applyAll_cons, apply_withExited, ih]

theorem ptyOnMessage_inert (exited : Bool) (m : String) :
    ∀ e ∈ (ptyOnMessage exited m).effects, e.inert = true := by
  unfold ptyOnMessage ptyOnParsed
  intro e he
  split at he
  · simp at he
  · split at he
    · simp at he
    · simp only at he
      split at he
      · split at he
        · simp at he
          subst he
          rfl
        · simp at he
      · split at he
        · split at he
          · simp at he
          · split at he
            · simp at he
              subst he
              rfl
            · simp at he
        · simp at he

theorem listener_run_inert (l : Listener) (exited : Bool) (ev : Event) (r : Run)
    (hr : l.run exited ev = some r) (hev : ev.isClose = false) :
    ∀ e ∈ r.effects, e.inert = true := by
  cases l <;> cases ev <;> simp [Listener.run, Event.isClose] at hr hev <;> subst hr
  all_goals first
    | exact ptyOnMessage_inert _ _
    | (intro e he; simp at he; subst he; rfl)

theorem emit_inert (ls : List Listener) (exited : Bool) (ev : Event)
    (hev : ev.isClose = false) :
    ∀ e ∈ (emit ls exited ev).effects, e.inert = true := by
  induction ls with
  | nil => intro e he; simp [emit] at he
  | cons l ls ih =>
    intro e he
    unfold emit at he
    cases hr : l.run exited ev with
    | none =>
      rw [hr] at he
      exact ih e he
    | some r =>
      rw [hr] at he
      simp only at he
      cases hc : r.completion with
      | normal =>
        rw [hc] at he
        simp only [List.mem_append] at he
        rcases he with he | he
        · exact listener_run_inert l exited ev r hr hev e he
        · exact ih e he
      | throw err =>
        rw [hc] at he
        exact listener_run_inert l exited ev r hr hev e he

theorem emit_close (ls : List Listener) (exited : Bool) :
    (emit ls exited .wsClose).completion = .normal ∧
    ∀ e ∈ (emit ls exited .wsClose).effects, e.isRelease = true := by
  induction ls with
  | nil => exact ⟨rfl, by intro e he; simp [emit] at he⟩
  | cons l ls ih =>
    cases l <;> simp [emit, Listener.run, ih.1, Effect.isRelease] <;> exact ih.2

theorem emit_close_exited (ls : List Listener) (x y : Bool) :
    emit ls x .wsClose = emit ls y .wsClose := by
  induction ls with
  | nil => rfl
  | cons l ls ih => cases l <;> simp [emit, Listener.run, ih]

theorem tick_run_inert (f : Tick) : ∀ e ∈ f.run, e.inert = true := by
  cases f <;> simp [Tick.run, sendAllContainers, sendSystemStats, Effect.inert]

theorem onListContainers_inert (result : Option (List ContainerInfo)) (t : Bool) :
    ∀ e ∈ (onListContainers result t).effects, e.inert = true := by
  cases result <;> cases t <;> simp [onListContainers, Effect.inert]

theorem onCollectors_inert (a b c d : Option JSValue) (t : Bool) :
    ∀ e ∈ (onCollectors a b c d t).effects, e.inert = true := by
  cases a <;> cases b <;> cases c <;> cases d <;> cases t <;>
    simp [onCollectors, Effect.inert]

theorem react_inert (s : Session) (i : Input) (hlogs : s.pendingLogs = 0)
    (hclose : i.isClose = true → s.closed = true) :
    ∀ e ∈ (s.react i).effects, e.inert = true := by
  cases i with
  | event ev =>
    simp only [Session.react]
    cases hev : ev.isClose with
    | false =>
      simp only [Bool.and_false]
      exact emit_inert s.listeners s.exited ev hev
    | true =>
      have hc := hclose (by simpa [Input.isClose] using hev)
      simp [hc]
  | tick =>
    simp only [Session.react]
    cases s.timer with
    | none => simp
    | some f => exact tick_run_inert f
  | listContainersDone result t => exact onListContainers_inert result t
  | collectorsDone a b c d t => exact onCollectors_inert a b c d t
  | logsDone ok => simp [Session.react, hlogs]
  | childError => simp [Session.react]

theorem note_of_settled (s : Session) (i : Input) (hlogs : s.pendingLogs = 0)
    (hclose : i.isClose = true → s.closed = true) :
    s.note i = s.withExited (s.exited || i.isExit) := by
  cases i with
  | event ev =>
    simp only [Session.note, Input.isExit, Session.withExited]
    cases hev : ev.isClose with
    | false => cases hx : ev.isExit <;> simp
    | true =>
      have hc := hclose (by simpa [Input.isClose] using hev)
      have hx : ev.isExit = false := by cases ev <;> simp_all [Event.isExit, Event.isClose]
      cases s
      simp_all
  | logsDone ok =>
    cases s
    simp_all [Session.note, Input.isExit, Session.withExited]
  | _ => simp [Session.note, Input.isExit, Session.withExited]

theorem step_state_of_settled (s : Session) (i : Input) (hlogs : s.pendingLogs = 0)
    (hclose : i.isClose = true → s.closed = true) :
    (s.step i).1 = s.withExited (s.exited || i.isExit) := by
  unfold Session.step
  simp only
  rw [applyAll_inert _ _ (react_inert s i hlogs hclose)]
  exact note_of_settled s i hlogs hclose

theorem step_close (s : Session) (i : Input) (hi : i.isClose = true)
    (hopen : s.closed = false) :
    s.step i = (s.closeOf, emit s.listeners s.exited .wsClose) := by
  cases i with
  | event ev =>
    cases ev <;> simp [Input.isClose, Event.isClose] at hi
    simp [Session.step, Session.react, Session.note, Session.closeOf, Event.isClose, hopen]
  | _ => simp [Input.isClose] at hi

theorem apply_release_fields (s : Session) (e : Effect) (h : e.isRelease = true) :
    (s.apply e).listeners = s.listeners ∧ (s.apply e).pendingLogs = s.pendingLogs ∧
    (s.apply e).closed = s.closed := by
  cases e <;> first | exact ⟨rfl, rfl, rfl⟩ | simp [Effect.isRelease] at h

theorem applyAll_release_fields (s : Session) (fx : List Effect)
    (h : ∀ e ∈ fx, e.isRelease = true) :
    (s.applyAll fx).listeners = s.listeners ∧ (s.applyAll fx).pendingLogs = s.pendingLogs ∧
    (s.applyAll fx).closed = s.closed := by
  induction fx generalizing s with
  | nil => exact ⟨rfl, rfl, rfl⟩
  | cons e fx ih =>
    rw [applyAll_cons]
    have h1 := apply_release_fields s e (h e (List.mem_cons_self _ _))
    have h2 := ih (s.apply e) (fun x hx => h x (List.mem_cons_of_mem _ hx))
    exact ⟨h2.1.trans h1.1, h2.2.1.trans h1.2.1, h2.2.2.trans h1.2.2⟩

theorem closeOf_fields (s : Session) :
    s.closeOf.listeners = s.listeners ∧ s.closeOf.pendingLogs = s.pendingLogs ∧
    s.closeOf.closed = true := by
  unfold Session.closeOf
  exact applyAll_release_fields _ _ (emit_close s.listeners s.exited).2

theorem closeOf_withExited (s : Session) (x : Bool) :
    (s.withExited x).closeOf = s.closeOf.withExited x := by
  unfold Session.closeOf
  have h : emit (s.withExited x).listeners (s.withExited x).exited .wsClose
      = emit s.listeners s.exited .wsClose := emit_close_exited s.listeners x s.exited
  rw [h]
  exact applyAll_withExited { s with closed := true } x _

theorem run_closed_stable (s : Session) (inputs : List Input)
    (hlogs : s.pendingLogs = 0) (hclosed : s.closed = true) :
    (∃ x, (s.run inputs).1 = s.withExited x) ∧
    ∀ e ∈ (s.run inputs).2.effects, e.inert = true := by
  induction inputs generalizing s with
  | nil => exact ⟨⟨s.exited, rfl⟩, by intro e he; simp [Session.run] at he⟩
  | cons i rest ih =>
    have hst := step_state_of_settled s i hlogs (fun _ => hclosed)
    have hfx : ∀ e ∈ (s.step i).2.effects, e.inert = true :=
      react_inert s i hlogs (fun _ => hclosed)
    unfold Session.run
    cases hc : (s.step i).2.completion with
    | normal =>
      simp only [hst]
      have ih' := ih (s.withExited (s.exited || i.isExit)) hlogs hclosed
      obtain ⟨x, hx⟩ := ih'.1
      refine ⟨⟨x, by rw [hx, withExited_withExited]⟩, ?_⟩
      intro e he
      rw [List.mem_append] at he
      rcases he with he | he
      · exact hfx e he
      · exact ih'.2 e he
    | throw err =>
      simp only
      exact ⟨⟨_, hst⟩, hfx⟩

theorem run_without_close (s : Session) (inputs : List Input)
    (hlogs : s.pendingLogs = 0) (hno : ∀ i ∈ inputs, i.isClose = false) :
    (∃ x, (s.run inputs).1 = s.withExited x) ∧
    ∀ e ∈ (s.run inputs).2.effects, e.inert = true := by
  induction inputs generalizing s with
  | nil => exact ⟨⟨s.exited, rfl⟩, by intro e he; simp [Session.run] at he⟩
  | cons i rest ih =>
    have hi := hno i (List.mem_cons_self _ _)
    have ih' := ih (s.withExited (s.exited || i.isExit)) hlogs
      (fun x hx => hno x (List.mem_cons_of_mem _ hx))
    have hst := step_state_of_settled s i hlogs (by simp [hi])
    have hfx : ∀ e ∈ (s.step i).2.effects, e.inert = true :=
      react_inert s i hlogs (by simp [hi])
    unfold Session.run
    cases hc : (s.step i).2.completion with
    | normal =>
      simp only [hst]
      obtain ⟨x, hx⟩ := ih'.1
      refine ⟨⟨x, by rw [hx, withExited_withExited]⟩, ?_⟩
      intro e he
      rw [List.mem_append] at he
      rcases he with he | he
      · exact hfx e he
      · exact ih'.2 e he
    | throw err =>
      simp only
      exact ⟨⟨_, hst⟩, hfx⟩

theorem run_until_close (s : Session) (inputs : List Input)
    (hlogs : s.pendingLogs = 0) (hopen : s.closed = false)
    (hret : (s.run (inputs ++ [.event .wsClose])).2.completion = .normal) :
    ∃ x, (s.run (inputs ++ [.event .wsClose])).1 = s.closeOf.withExited x := by
  induction inputs generalizing s with
  | nil =>
    simp only [List.nil_append, Session.run]
    rw [step_close s (.event .wsClose) rfl hopen]
    simp only [(emit_close s.listeners s.exited).1, Session.run]
    exact ⟨s.closeOf.exited, rfl⟩
  | cons i rest ih =>
    simp only [List.cons_append, Session.run] at hret ⊢
    cases hc : (s.step i).2.completion with
    | throw err =>
      rw [hc] at hret
      simp at hret
    | normal =>
      rw [hc] at hret
      simp only at hret ⊢
      cases hi : i.isClose with
      | false =>
        have hst := step_state_of_settled s i hlogs (by simp [hi])
        rw [hst] at hret ⊢
        obtain ⟨x, hx⟩ := ih (s.withExited (s.exited || i.isExit)) hlogs hopen hret
        refine ⟨x, ?_⟩
        simp only [List.append_eq] at hx ⊢
        rw [hx, closeOf_withExited, withExited_withExited]
      | true =>
        have hst := step_close s i hi hopen
        rw [hst]
        simp only
        exact (run_closed_stable s.closeOf _ ((closeOf_fields s).2.1.trans hlogs)
          (closeOf_fields s).2.2).1

/-! ## Sessions after the connection handler -/

theorem connect_shell (env : Env) (req : UpgradeRequest) :
    connect env .Shell req
      = ⟨[.termOnData, .wsMessage, .wsCloseKillTerm], none, 1, 0, 0, false, false⟩ := rfl

theorem connect_dockerStats (env : Env) (req : UpgradeRequest) :
    connect env .ContainerList req
      = ⟨[.wsCloseClearInterval], some .sendAllContainers, 0, 0, 0, false, false⟩ := rfl

theorem connect_systemStats (env : Env) (req : UpgradeRequest) :
    connect env .HostMetrics req
      = ⟨[.wsCloseClearInterval], some .sendSystemStats, 0, 0, 0, false, false⟩ := rfl

theorem connect_ping (env : Env) (req : UpgradeRequest) :
    (handleCount (onConnection env .NetworkPing req) = 0 ∧
      connect env .NetworkPing req = ⟨[], none, 0, 0, 0, false, false⟩) ∨
    (handleCount (onConnection env .NetworkPing req) = 1 ∧
      connect env .NetworkPing req
        = ⟨[.pingStdoutData, .pingStderrData, .wsCloseKillPing], none, 1, 0, 0, false,
            false⟩) := by
  unfold connect onConnection networkPingOnConnection
  simp only
  split
  · exact Or.inl ⟨rfl, rfl⟩
  · split
    · exact Or.inl ⟨rfl, rfl⟩
    · exact Or.inr ⟨rfl, rfl⟩

theorem connect_dockerShell (env : Env) (req : UpgradeRequest) :
    (handleCount (onConnection env .ContainerExec req) = 0 ∧
      connect env .ContainerExec req = ⟨[], none, 0, 0, 0, false, false⟩) ∨
    (handleCount (onConnection env .ContainerExec req) = 1 ∧
      connect env .ContainerExec req
        = ⟨[.termOnData, .wsMessage, .wsCloseKillTerm], none, 1, 0, 0, false, false⟩) := by
  unfold connect onConnection dockerShellOnConnection
  simp only
  split
  · exact Or.inl ⟨rfl, rfl⟩
  · split
    · exact Or.inl ⟨rfl, rfl⟩
    · exact Or.inr ⟨rfl, rfl⟩

theorem connect_dockerLogs (env : Env) (req : UpgradeRequest)
    (hc : env.containerTruthy ((split req.url)[4]?) = true) :
    connect env .ContainerLog req = ⟨[], none, 0, 1, 0, false, false⟩ := by
  simp [connect, onConnection, dockerLogsOnConnection, hc, Session.applyAll, Session.apply,
    Session.init]

theorem connect_settled (env : Env) (req : UpgradeRequest) (k : Kind)
    (hk : k ≠ .ContainerLog) :
    (connect env k req).pendingLogs = 0 ∧ (connect env k req).closed = false ∧
    (connect env k req).live = handleCount (onConnection env k req) ∧
    (connect env k req).closeOf.timer = none ∧ (connect env k req).closeOf.processes = 0 := by
  cases k with
  | ContainerLog => exact absurd rfl hk
  | ContainerList => exact ⟨rfl, rfl, rfl, rfl, rfl⟩
  | HostMetrics => exact ⟨rfl, rfl, rfl, rfl, rfl⟩
  | Shell => exact ⟨rfl, rfl, rfl, rfl, rfl⟩
  | NetworkPing =>
    rcases connect_ping env req with ⟨h0, h⟩ | ⟨h1, h⟩ <;> rw [h] <;>
      first | exact ⟨rfl, rfl, h0.symm, rfl, rfl⟩ | exact ⟨rfl, rfl, h1.symm, rfl, rfl⟩
  | ContainerExec =>
    rcases connect_dockerShell env req with ⟨h0, h⟩ | ⟨h1, h⟩ <;> rw [h] <;>
      first | exact ⟨rfl, rfl, h0.symm, rfl, rfl⟩ | exact ⟨rfl, rfl, h1.symm, rfl, rfl⟩

/-- C11: over any number of sessions of the kinds Shell, Container-Exec,
Container-List, Host-Metrics and Network-Ping, each connected, fed any inputs
on which its code returns, and then closed: the handles a session holds after
its connection handler are the ones that handler constructed, and once its
connection has closed the session holds no interval timer and no process that
was not sent `kill()`; summed over all sessions nothing is left. -/
theorem C11_closed_sessions_hold_no_timer_or_process
    (env : Env) (cycles : List (Kind × UpgradeRequest × List Input))
    (hkind : ∀ c ∈ cycles, c.1 ≠ .ContainerLog)
    (hret : ∀ c ∈ cycles,
      ((connect env c.1 c.2.1).run (c.2.2 ++ [.event .wsClose])).2.completion = .normal) :
    (∀ c ∈ cycles,
      (connect env c.1 c.2.1).live = handleCount (onConnection env c.1 c.2.1) ∧
      ((connect env c.1 c.2.1).run (c.2.2 ++ [.event .wsClose])).1.timer = none ∧
      ((connect env c.1 c.2.1).run (c.2.2 ++ [.event .wsClose])).1.processes = 0) ∧
    (cycles.map (fun c =>
      ((connect env c.1 c.2.1).run (c.2.2 ++ [.event .wsClose])).1.live)).sum = 0 := by
  have hall : ∀ c ∈ cycles,
      (connect env c.1 c.2.1).live = handleCount (onConnection env c.1 c.2.1) ∧
      ((connect env c.1 c.2.1).run (c.2.2 ++ [.event .wsClose])).1.timer = none ∧
      ((connect env c.1 c.2.1).run (c.2.2 ++ [.event .wsClose])).1.processes = 0 := by
    intro c hc
    have hs := connect_settled env c.2.1 c.1 (hkind c hc)
    obtain ⟨x, hx⟩ := run_until_close _ _ hs.1 hs.2.1 (hret c hc)
    rw [hx]
    exact ⟨hs.2.2.1, hs.2.2.2.1, hs.2.2.2.2⟩
  refine ⟨hall, ?_⟩
  apply List.sum_eq_zero
  intro n hn
  rw [List.mem_map] at hn
  obtain ⟨c, hc, rfl⟩ := hn
  have h := hall c hc
  simp [Session.live, h.2.1, h.2.2]

/-- Witness for C11: a Shell session with output and an input message, a
Container-List session with a tick and a frame, and a Network-Ping session. -/
theorem C11_witness_three_sessions :
    ([(Kind.Shell, shellRequest,
        [Input.event (.termData "$ "),
         .event (.wsMessage "\x7b\"type\":\"input\",\"data\":\"ls\\n\"\x7d")]),
      (Kind.ContainerList, statsRequest,
        [Input.tick, .listContainersDone (some [webContainer]) false]),
      (Kind.NetworkPing, pingRequest, [Input.event (.pingStdout "PING")])].map
      (fun c => ((connect linuxEnv c.1 c.2.1).run (c.2.2 ++ [.event .wsClose])).1.live)).sum
      = 0 :=
  (C11_closed_sessions_hold_no_timer_or_process linuxEnv
    [(Kind.Shell, shellRequest,
        [Input.event (.termData "$ "),
         .event (.wsMessage "\x7b\"type\":\"input\",\"data\":\"ls\\n\"\x7d")]),
      (Kind.ContainerList, statsRequest,
        [Input.tick, .listContainersDone (some [webContainer]) false]),
      (Kind.NetworkPing, pingRequest, [Input.event (.pingStdout "PING")])]
    (by decide) (by decide)).2

/-! ## The Container-Log-Tail session -/

theorem inert_not_streamDestroy (fx : List Effect) (h : ∀ e ∈ fx, e.inert = true) :
    fx.countP Effect.isStreamDestroy = 0 := by
  rw [List.countP_eq_zero]
  intro e he
  have := h e he
  cases e <;> simp_all [Effect.inert, Effect.isStreamDestroy]

theorem inert_not_clearInterval (fx : List Effect) (h : ∀ e ∈ fx, e.inert = true) :
    fx.countP Effect.isClearInterval = 0 := by
  rw [List.countP_eq_zero]
  intro e he
  have := h e he
  cases e <;> simp_all [Effect.inert, Effect.isClearInterval]

theorem run_events_no_listeners (s : Session) (evs : List Event) (h : s.listeners = []) :
    (s.run (evs.map Input.event)).2 = ⟨[], .normal⟩ := by
  induction evs generalizing s with
  | nil => rfl
  | cons ev evs ih =>
    have hr : s.react (.event ev) = ⟨[], .normal⟩ := by
      simp only [Session.react, h]
      split <;> rfl
    have hl : (s.step (.event ev)).1.listeners = [] := by
      simp only [Session.step, hr, applyAll_nil, Session.note]
      split
      · exact h
      · split <;> exact h
    simp only [List.map_cons, Session.run]
    have hc : (s.step (.event ev)).2 = ⟨[], .normal⟩ := hr
    rw [hc]
    simp only [List.nil_append]
    rw [ih _ hl]

/-- C12: on a Container-Log-Tail session whose attach succeeds, a close of the
connection that comes after the attach callback destroys the stream; a close
that comes before the callback finds no close listener, the callback then
attaches the stream and registers a close listener that never runs, and
whatever is delivered afterwards the stream is not destroyed. -/
theorem C12_close_before_attach_callback_never_destroys
    (env : Env) (req : UpgradeRequest) (more : List Input)
    (hc : env.containerTruthy ((split req.url)[4]?) = true) :
    ((connect env .ContainerLog req).run [.logsDone true, .event .wsClose]).2
      = ⟨[.on .streamData, .on .wsCloseDestroyStream, .streamDestroy], .normal⟩ ∧
    ((connect env .ContainerLog req).run [.logsDone true, .event .wsClose]).1.streams = 0 ∧
    ((connect env .ContainerLog req).run (.event .wsClose :: .logsDone true :: more)).1.streams
      = 1 ∧
    ((connect env .ContainerLog req).run
      (.event .wsClose :: .logsDone true :: more)).2.effects.countP Effect.isStreamDestroy
      = 0 := by
  rw [connect_dockerLogs env req hc]
  refine ⟨rfl, rfl, ?_, ?_⟩
  · have hs := run_closed_stable
      (⟨[.streamData, .wsCloseDestroyStream], none, 0, 0, 1, true, false⟩ : Session) more rfl rfl
    simp only [Session.run, Session.step, Session.react, Session.note, Event.isClose, emit,
      onLogs, Session.applyAll, Session.apply, List.foldl, Bool.and_true, Bool.false_eq_true,
      if_false, if_true, List.nil_append, Nat.reduceAdd, Nat.reduceSub]
    obtain ⟨x, hx⟩ := hs.1
    simpa [Session.withExited] using congrArg Session.streams hx
  · have hs := run_closed_stable
      (⟨[.streamData, .wsCloseDestroyStream], none, 0, 0, 1, true, false⟩ : Session) more rfl rfl
    simp only [Session.run, Session.step, Session.react, Session.note, Event.isClose, emit,
      onLogs, Session.applyAll, Session.apply, List.foldl, Bool.and_true, Bool.false_eq_true,
      if_false, if_true, List.nil_append, Nat.reduceAdd, Nat.reduceSub]
    have h0 := inert_not_streamDestroy _ hs.2
    simpa [List.countP_cons, List.countP_append, Effect.isStreamDestroy] using h0

/-- Failing input for C12: the connection of `/api/docker/containers/abc/logs`
closes, then the attach callback hands over the stream, then the stream
delivers data. -/
theorem C12_witness_close_then_attach :
    ((connect linuxEnv .ContainerLog logsRequest).run
      (.event .wsClose :: .logsDone true :: [.event (.streamData "line")])).1.streams = 1 ∧
    ((connect linuxEnv .ContainerLog logsRequest).run
      (.event .wsClose :: .logsDone true :: [.event (.streamData "line")])).2.effects.countP
        Effect.isStreamDestroy = 0 :=
  have h := C12_close_before_attach_callback_never_destroys linuxEnv logsRequest
    [.event (.streamData "line")] rfl
  ⟨h.2.2.1, h.2.2.2⟩

/-- C13: on a Container-Log-Tail session whose attach callback reports an
error, the callback makes the single call `ws.close()`: it registers no
listener, no stream is attached, and no event delivered afterwards sends a
frame or makes any call. -/
theorem C13_attach_error_closes_without_listener
    (env : Env) (req : UpgradeRequest) (evs : List Event)
    (hc : env.containerTruthy ((split req.url)[4]?) = true) :
    ((connect env .ContainerLog req).step (.logsDone false)).2 = ⟨[.wsClose], .normal⟩ ∧
    ((connect env .ContainerLog req).step (.logsDone false)).1.listeners = [] ∧
    ((connect env .ContainerLog req).step (.logsDone false)).1.streams = 0 ∧
    (((connect env .ContainerLog req).step (.logsDone false)).1.run
      (evs.map Input.event)).2 = ⟨[], .normal⟩ := by
  rw [connect_dockerLogs env req hc]
  refine ⟨rfl, rfl, rfl, ?_⟩
  exact run_events_no_listeners _ evs rfl

/-- Witness for C13: the attach for `/api/docker/containers/abc/logs` fails;
stream data and the close of the connection follow. -/
theorem C13_witness_unknown_container :
    ((connect linuxEnv .ContainerLog logsRequest).step (.logsDone false)).2
      = ⟨[.wsClose], .normal⟩ ∧
    (((connect linuxEnv .ContainerLog logsRequest).step (.logsDone false)).1.run
      ([Event.streamData "line", Event.wsClose].map Input.event)).2 = ⟨[], .normal⟩ :=
  have h := C13_attach_error_closes_without_listener linuxEnv logsRequest
    [.streamData "line", .wsClose] rfl
  ⟨h.1, h.2.2.2⟩

/-! ## The two pollers -/

theorem connect_poller (env : Env) (req : UpgradeRequest) (k : Kind) (f : Tick)
    (hk : (k, f) = (Kind.ContainerList, Tick.sendAllContainers) ∨
      (k, f) = (Kind.HostMetrics, Tick.sendSystemStats)) :
    connect env k req = ⟨[.wsCloseClearInterval], some f, 0, 0, 0, false, false⟩ ∧
    onConnection env k req = f.run ++ [.setInterval f 2000, .on .wsCloseClearInterval] := by
  rcases hk with h | h <;> cases h <;> exact ⟨rfl, rfl⟩

/-- C14: the connection handler of a Container-List or Host-Metrics session
calls the snapshot function once, then registers one timer, for the same
function with period 2000, then the close listener; each expiry of the timer
calls that function; no input other than the close of the connection clears the
timer, and the close clears it, after which an expiry calls nothing. -/
theorem C14_poller_snapshot_at_connect_and_every_2000
    (env : Env) (req : UpgradeRequest) (k : Kind) (f : Tick) (inputs : List Input)
    (hk : (k, f) = (Kind.ContainerList, Tick.sendAllContainers) ∨
      (k, f) = (Kind.HostMetrics, Tick.sendSystemStats))
    (hno : ∀ i ∈ inputs, i.isClose = false) :
    onConnection env k req = f.run ++ [.setInterval f 2000, .on .wsCloseClearInterval] ∧
    handleCount (onConnection env k req) = 1 ∧
    ((connect env k req).step .tick).2 = ⟨f.run, .normal⟩ ∧
    ((connect env k req).run inputs).1.timer = some f ∧
    ((connect env k req).run inputs).2.effects.countP Effect.isClearInterval = 0 ∧
    ((connect env k req).step (.event .wsClose)).2 = ⟨[.clearInterval], .normal⟩ ∧
    ((connect env k req).step (.event .wsClose)).1.timer = none ∧
    (((connect env k req).step (.event .wsClose)).1.step .tick).2 = ⟨[], .normal⟩ := by
  have hcp := connect_poller env req k f hk
  have hrun := run_without_close (connect env k req) inputs (by rw [hcp.1]) hno
  obtain ⟨x, hx⟩ := hrun.1
  refine ⟨hcp.2, ?_, ?_, ?_, inert_not_clearInterval _ hrun.2, ?_, ?_, ?_⟩
  · rcases hk with h | h <;> cases h <;> rfl
  · rw [hcp.1]; rfl
  · rw [hx, hcp.1]
    rfl
  · rw [hcp.1]; rfl
  · rw [hcp.1]; rfl
  · rw [hcp.1]; rfl

/-- Witness for C14: a Container-List session with two expiries of the timer
and one frame. -/
theorem C14_witness_docker_stats :
    onConnection linuxEnv .ContainerList statsRequest
      = [.listContainers, .setInterval .sendAllContainers 2000, .on .wsCloseClearInterval] ∧
    ((connect linuxEnv .ContainerList statsRequest).run
      [.tick, .listContainersDone (some [webContainer]) false, .tick]).1.timer
      = some .sendAllContainers :=
  have h := C14_poller_snapshot_at_connect_and_every_2000 linuxEnv statsRequest
    .ContainerList .sendAllContainers
    [.tick, .listContainersDone (some [webContainer]) false, .tick] (Or.inl rfl) (by decide)
  ⟨h.1, h.2.2.2.1⟩

theorem react_failedTick (s : Session) (i : Input) (h : i.failedTick = true) :
    s.react i = ⟨[], .normal⟩ := by
  cases i with
  | listContainersDone result t =>
    cases result <;> simp_all [Input.failedTick, Session.react, onListContainers]
  | collectorsDone a b c d t =>
    cases a <;> cases b <;> cases c <;> cases d <;>
      simp_all [Input.failedTick, Session.react, onCollectors]
  | _ => simp [Input.failedTick] at h

theorem note_failedTick (s : Session) (i : Input) (h : i.failedTick = true) : s.note i = s := by
  cases i <;> first | rfl | simp [Input.failedTick] at h

/-- C15: a tick of a Container-List or Host-Metrics session whose snapshot
fails (the listing returns an error, a collector rejects, or serialising or
sending throws) makes no call and returns: no frame, no exception, no
`clearInterval`, no `ws.close()`; the session is left as it was, so the next
expiry of its timer calls the snapshot function again. -/
theorem C15_failed_tick_is_skipped
    (s : Session) (i : Input) (f : Tick)
    (hfail : i.failedTick = true) (htimer : s.timer = some f) :
    (s.step i).2 = ⟨[], .normal⟩ ∧
    (s.step i).1 = s ∧
    (s.step i).1.timer = some f ∧
    ((s.step i).1.step .tick).2 = ⟨f.run, .normal⟩ := by
  have hr := react_failedTick s i hfail
  have hs : (s.step i).1 = s := by
    simp only [Session.step, hr, applyAll_nil]
    exact note_failedTick s i hfail
  refine ⟨hr, hs, ?_, ?_⟩
  · rw [hs, htimer]
  · rw [hs]
    simp [Session.step, Session.react, htimer]

/-- Witness for C15: on a Host-Metrics session the memory collector rejects. -/
theorem C15_witness_mem_rejects :
    ((connect linuxEnv .HostMetrics statsRequest).step
      (.collectorsDone (some .null) none (some .null) (some .null) false)).2
      = ⟨[], .normal⟩ ∧
    (((connect linuxEnv .HostMetrics statsRequest).step
      (.collectorsDone (some .null) none (some .null) (some .null) false)).1.step .tick).2
      = ⟨sendSystemStats, .normal⟩ :=
  have h := C15_failed_tick_is_skipped (connect linuxEnv .HostMetrics statsRequest)
    (.collectorsDone (some .null) none (some .null) (some .null) false) .sendSystemStats
    rfl rfl
  ⟨h.1, h.2.2.2⟩

/-- C16: when the listing succeeds and the send does not throw, the callback
sends one frame, the object with `type` `"all-containers"` and `payload` an
array with one element per listed container, in the order of the list; the
element for a container is the object of the six fields `Id`, `Name`, `Image`,
`State`, `Status`, `Ports`, in which `Id`, `Image`, `State`, `Status` and
`Ports` are the container's own. -/
theorem C16_all_containers_frame (s : Session) (containers : List ContainerInfo) :
    (s.step (.listContainersDone (some containers) false)).2
      = ⟨[.wsSendJSON (.object [("type", .string "all-containers"),
            ("payload", .array (containers.map simplifyContainer))])], .normal⟩ ∧
    (containers.map simplifyContainer).length = containers.length ∧
    ∀ n : Nat, (containers.map simplifyContainer)[n]?
      = containers[n]?.map (fun c =>
          JSValue.object [("Id", c.Id), ("Name", .string (containerName c)),
            ("Image", c.Image), ("State", c.State), ("Status", c.Status),
            ("Ports", c.Ports)]) := by
  refine ⟨rfl, List.length_map _ _, ?_⟩
  intro n
  rw [List.getElem?_map]
  rfl

/-- C17, as stated, fails: all four collectors succeed, but serialising or
sending throws inside the `try`, and no frame is sent. -/
theorem C17_counterexample_send_throws :
    ((connect linuxEnv .HostMetrics statsRequest).step
      (.collectorsDone (some (.number 12 0)) (some (.number 34 0)) (some (.array []))
        (some (.array [])) true)).2 = ⟨[], .normal⟩ :=
  rfl

/-- C17, amended: a tick of a Host-Metrics session sends a frame if and only if
all four collectors succeed and serialising and sending do not throw; the frame
is then the object with the four keys `cpu`, `mem`, `fsSize`, `networkStats`
bound to the results of current load, memory, filesystem sizes and network
stats; in every other case nothing is sent, partial or not, and the tick
returns. -/
theorem C17_frame_iff_all_collectors_and_send_succeed
    (s : Session) (cpu mem fsSize networkStats : Option JSValue) (sendThrows : Bool) :
    (s.step (.collectorsDone cpu mem fsSize networkStats sendThrows)).2.completion
      = .normal ∧
    ((s.step (.collectorsDone cpu mem fsSize networkStats sendThrows)).2.effects.countP
        Effect.isSend = 1 ↔
      (cpu.isSome ∧ mem.isSome ∧ fsSize.isSome ∧ networkStats.isSome ∧ sendThrows = false)) ∧
    ((s.step (.collectorsDone cpu mem fsSize networkStats sendThrows)).2.effects.countP
        Effect.isSend = 0 ↔
      ¬ (cpu.isSome ∧ mem.isSome ∧ fsSize.isSome ∧ networkStats.isSome ∧ sendThrows = false)) ∧
    (∀ a b c d : JSValue, cpu = some a → mem = some b → fsSize = some c →
      networkStats = some d → sendThrows = false →
      (s.step (.collectorsDone cpu mem fsSize networkStats sendThrows)).2.effects
        = [.wsSendJSON (.object [("cpu", a), ("mem", b), ("fsSize", c),
            ("networkStats", d)])]) ∧
    (¬ (cpu.isSome ∧ mem.isSome ∧ fsSize.isSome ∧ networkStats.isSome ∧ sendThrows = false) →
      (s.step (.collectorsDone cpu mem fsSize networkStats sendThrows)).2.effects = []) := by
  cases cpu <;> cases mem <;> cases fsSize <;> cases networkStats <;> cases sendThrows <;>
    simp [Session.step, Session.react, onCollectors, Effect.isSend]
  intro a b c d h1 h2 h3 h4
  exact ⟨h1, h2, h3, h4⟩

/-- Witness for C17: all four collectors succeed and the frame is sent. -/
theorem C17_witness_frame :
    ((connect linuxEnv .HostMetrics statsRequest).step
      (.collectorsDone (some (.number 12 0)) (some (.number 34 0)) (some (.array []))
        (some (.array [])) false)).2.effects
      = [.wsSendJSON (.object [("cpu", .number 12 0), ("mem", .number 34 0),
          ("fsSize", .array []), ("networkStats", .array [])])] :=
  (C17_frame_iff_all_collectors_and_send_succeed (connect linuxEnv .HostMetrics statsRequest)
    (some (.number 12 0)) (some (.number 34 0)) (some (.array [])) (some (.array []))
    false).2.2.2.1 _ _ _ _ rfl rfl rfl rfl rfl

/-! ## Container ids taken from the request URL -/

/-- C18: the Container-Log-Tail handler takes the container id from the raw
request URL, not from its path.  For `/api/docker/containers/abc/logs?tail=5`
the id is the 4th path segment `abc`; for `/api/docker/containers/abc?tail=5`,
routed to the same session, the 4th path segment is `abc` but the attach is
made for `abc?tail=5`. -/
theorem C18_log_container_id_includes_query_string :
    route "/api/docker/containers/abc/logs" = some .ContainerLog ∧
    (split "/api/docker/containers/abc/logs")[4]? = some "abc" ∧
    (onUpgrade linuxEnv logsRequest).effects
      = [.handleUpgrade .ContainerLog, .getContainer (some "abc"), .logs (some "abc")] ∧
    route "/api/docker/containers/abc" = some .ContainerLog ∧
    (split "/api/docker/containers/abc")[4]? = some "abc" ∧
    (onUpgrade linuxEnv logsRequestWithQuery).effects
      = [.handleUpgrade .ContainerLog, .getContainer (some "abc?tail=5"),
          .logs (some "abc?tail=5")] := by
  refine ⟨by decide, by decide, rfl, by decide, by decide, rfl⟩

/-- C19: the Container-Exec handler takes the container id from the raw request
URL, not from its path.  For `/api/docker/shell/abc?cols=80` the last path
segment is `abc` but `docker exec` is run on `abc?cols=80`; for
`/api/docker/shell/abc?cwd=/tmp` it is run on `tmp`. -/
theorem C19_exec_container_id_comes_from_query_string :
    route "/api/docker/shell/abc" = some .ContainerExec ∧
    (split "/api/docker/shell/abc").getLast? = some "abc" ∧
    (onUpgrade linuxEnv dockerShellRequest).effects
      = [.handleUpgrade .ContainerExec,
          .ptySpawn "docker"
            ["exec", "-it", "abc", "sh", "-c", "TERM=xterm-256color /bin/bash || /bin/sh"]
            "xterm-color" 80 30,
          .on .termOnData, .on .wsMessage, .on .wsCloseKillTerm] ∧
    (onUpgrade linuxEnv execRequestWithQuery).effects
      = [.handleUpgrade .ContainerExec,
          .ptySpawn "docker"
            ["exec", "-it", "abc?cols=80", "sh", "-c",
              "TERM=xterm-256color /bin/bash || /bin/sh"]
            "xterm-color" 80 30,
          .on .termOnData, .on .wsMessage, .on .wsCloseKillTerm] ∧
    (onUpgrade linuxEnv execRequestWithSlashInQuery).effects
      = [.handleUpgrade .ContainerExec,
          .ptySpawn "docker"
            ["exec", "-it", "tmp", "sh", "-c", "TERM=xterm-256color /bin/bash || /bin/sh"]
            "xterm-color" 80 30,
          .on .termOnData, .on .wsMessage, .on .wsCloseKillTerm] := by
  refine ⟨by decide, by decide, rfl, rfl, rfl⟩

/-! ## A spawn that fails -/

/-- C20: on a Shell, Container-Exec or Network-Ping session the failure of the
spawn is handled nowhere.  When the spawn call throws, the exception leaves the
connection handler before any other call: no `ws.close()`, no listener.  When
the child process reports the failure by its `error` event, nothing listens:
the error is thrown, again without `ws.close()`, and the session keeps what it
held.  No frame is sent and the spawn is not repeated. -/
theorem C20_spawn_failure_is_not_handled
    (env : Env) (req : UpgradeRequest) (k : Kind)
    (hk : k = .Shell ∨ k = .ContainerExec ∨ k = .NetworkPing)
    (hspawn : handleCount (onConnection env k req) = 1) :
    onConnectionRun env k req true = ⟨[], .throw .Error⟩ ∧
    onConnectionRun env k req false = ⟨onConnection env k req, .normal⟩ ∧
    ((connect env k req).step .childError).2 = ⟨[], .throw .Error⟩ ∧
    ((connect env k req).step .childError).1 = connect env k req := by
  refine ⟨?_, rfl, rfl, rfl⟩
  rcases hk with rfl | rfl | rfl
  · rfl
  · unfold onConnectionRun
    simp only [onConnection] at hspawn ⊢
    unfold dockerShellOnConnection at hspawn ⊢
    split at hspawn
    · simp [handleCount, Effect.constructsHandle] at hspawn
    · split at hspawn
      · simp [handleCount, Effect.constructsHandle] at hspawn
      · simp [*, Effect.isSpawn]
  · unfold onConnectionRun
    simp only [onConnection] at hspawn ⊢
    unfold networkPingOnConnection at hspawn ⊢
    split at hspawn
    · simp [handleCount, Effect.constructsHandle] at hspawn
    · split at hspawn
      · simp [handleCount, Effect.constructsHandle] at hspawn
      · simp [*, Effect.isSpawn]

/-- Failing input for C20: `pty.spawn` throws on `/api/shell`; the `ping` child
of `/api/network/ping?host=...` emits `error`. -/
theorem C20_witness_shell_and_ping :
    onConnectionRun linuxEnv .Shell shellRequest true = ⟨[], .throw .Error⟩ ∧
    ((connect linuxEnv .NetworkPing pingRequest).run [.childError, .event .wsClose]).2
      = ⟨[], .throw .Error⟩ :=
  ⟨(C20_spawn_failure_is_not_handled linuxEnv shellRequest .Shell (Or.inl rfl) rfl).1,
    rfl⟩

/-! ## Output chunks -/

theorem sentFrames_append (a b : List Effect) :
    sentFrames (a ++ b) = sentFrames a ++ sentFrames b := by
  induction a with
  | nil => rfl
  | cons e a ih => cases e <;> simp [sentFrames, ih]

theorem sentFrames_ptyOnMessage (exited : Bool) (m : String) :
    sentFrames (ptyOnMessage exited m).effects = [] := by
  unfold ptyOnMessage ptyOnParsed
  split
  · rfl
  · split
    · rfl
    · simp only
      split
      · split <;> rfl
      · split
        · split
          · rfl
          · split <;> rfl
        · rfl

theorem sentFrames_release (fx : List Effect) (h : ∀ e ∈ fx, e.isRelease = true) :
    sentFrames fx = [] := by
  induction fx with
  | nil => rfl
  | cons e fx ih =>
    have he := h e (List.mem_cons_self _ _)
    have ih' := ih (fun x hx => h x (List.mem_cons_of_mem _ hx))
    cases e <;> simp_all [sentFrames, Effect.isRelease]

/-- The listeners of a session of each kind while it holds its handle. -/
theorem emit_frames (k : Kind) (ls : List Listener) (exited : Bool) (ev : Event)
    (hls : ((k = .Shell ∨ k = .ContainerExec) ∧
        ls = [.termOnData, .wsMessage, .wsCloseKillTerm]) ∨
      (k = .NetworkPing ∧ ls = [.pingStdoutData, .pingStderrData, .wsCloseKillPing]) ∨
      (k = .ContainerLog ∧ ls = [.streamData, .wsCloseDestroyStream]) ∨
      ((k = .ContainerList ∨ k = .HostMetrics) ∧ ls = [.wsCloseClearInterval])) :
    sentFrames (emit ls exited ev).effects = (k.chunk ev).toList := by
  rcases hls with ⟨hk, rfl⟩ | ⟨rfl, rfl⟩ | ⟨rfl, rfl⟩ | ⟨hk, rfl⟩
  · cases ev with
    | wsMessage m =>
      rw [emit_pty_message, sentFrames_ptyOnMessage]
      rfl
    | termData chunk => rcases hk with rfl | rfl <;> rfl
    | _ => rcases hk with rfl | rfl <;> rfl
  · cases ev <;> rfl
  · cases ev <;> rfl
  · cases ev <;> rcases hk with rfl | rfl <;> rfl

theorem step_event_fields (s : Session) (ev : Event) (hlogs : s.pendingLogs = 0) :
    (s.step (.event ev)).1.listeners = s.listeners ∧
    (s.step (.event ev)).1.pendingLogs = 0 := by
  by_cases hc : (Input.event ev).isClose = true ∧ s.closed = false
  · rw [step_close s _ hc.1 hc.2]
    exact ⟨(closeOf_fields s).1, (closeOf_fields s).2.1.trans hlogs⟩
  · have hst := step_state_of_settled s (.event ev) hlogs (by
      intro h
      cases hcl : s.closed with
      | true => rfl
      | false => exact absurd ⟨h, hcl⟩ hc)
    rw [hst]
    exact ⟨rfl, hlogs⟩

theorem run_frames (k : Kind) (s : Session) (evs : List Event)
    (hls : ((k = .Shell ∨ k = .ContainerExec) ∧
        s.listeners = [.termOnData, .wsMessage, .wsCloseKillTerm]) ∨
      (k = .NetworkPing ∧ s.listeners = [.pingStdoutData, .pingStderrData, .wsCloseKillPing]) ∨
      (k = .ContainerLog ∧ s.listeners = [.streamData, .wsCloseDestroyStream]) ∨
      ((k = .ContainerList ∨ k = .HostMetrics) ∧ s.listeners = [.wsCloseClearInterval]))
    (hlogs : s.pendingLogs = 0)
    (hret : (s.run (evs.map Input.event)).2.completion = .normal) :
    sentFrames (s.run (evs.map Input.event)).2.effects = evs.filterMap k.chunk := by
  induction evs generalizing s with
  | nil => rfl
  | cons ev evs ih =>
    have hf := step_event_fields s ev hlogs
    have hreact : sentFrames (s.step (.event ev)).2.effects = (k.chunk ev).toList := by
      simp only [Session.step, Session.react]
      split
      · rename_i hcl
        simp only [Bool.and_eq_true] at hcl
        cases ev <;> simp [Event.isClose] at hcl
        rfl
      · exact emit_frames k s.listeners s.exited ev hls
    simp only [List.map_cons, Session.run] at hret ⊢
    cases hc : (s.step (.event ev)).2.completion with
    | throw err =>
      rw [hc] at hret
      simp at hret
    | normal =>
      rw [hc] at hret
      simp only at hret ⊢
      rw [sentFrames_append, hreact, ih _ (by rw [hf.1]; exact hls) hf.2 hret]
      cases hch : k.chunk ev <;> simp [List.filterMap_cons, hch]

/-- C21: on a session that holds its handle (a Shell, Container-Exec or
Network-Ping session after its spawn, a Container-Log-Tail session after its
attach callback), for every sequence of events on which the listeners return,
the strings handed to `ws.send` are exactly the output chunks of the handle
among these events, one frame per chunk and in the order of arrival: pty output
for Shell and Container-Exec, the decoded standard output and standard error
chunks interleaved as they arrive for Network-Ping, the decoded stream chunks
for Container-Log-Tail. -/
theorem C21_one_frame_per_chunk_in_order
    (env : Env) (req : UpgradeRequest) (k : Kind) (s : Session) (evs : List Event)
    (hs : ((k = .Shell ∨ k = .ContainerExec ∨ k = .NetworkPing) ∧
        handleCount (onConnection env k req) = 1 ∧ s = connect env k req) ∨
      (k = .ContainerLog ∧ env.containerTruthy ((split req.url)[4]?) = true ∧
        s = ((connect env k req).step (.logsDone true)).1))
    (hret : (s.run (evs.map Input.event)).2.completion = .normal) :
    sentFrames (s.run (evs.map Input.event)).2.effects = evs.filterMap k.chunk := by
  rcases hs with ⟨hk, hspawn, rfl⟩ | ⟨rfl, hc, rfl⟩
  · rcases hk with rfl | rfl | rfl
    · exact run_frames _ _ evs (Or.inl ⟨Or.inl rfl, rfl⟩) rfl hret
    · rcases connect_dockerShell env req with ⟨h0, _⟩ | ⟨_, h⟩
      · rw [h0] at hspawn
        exact absurd hspawn (by decide)
      · rw [h] at hret ⊢
        exact run_frames _ _ evs (Or.inl ⟨Or.inr rfl, rfl⟩) rfl hret
    · rcases connect_ping env req with ⟨h0, _⟩ | ⟨_, h⟩
      · rw [h0] at hspawn
        exact absurd hspawn (by decide)
      · rw [h] at hret ⊢
        exact run_frames _ _ evs (Or.inr (Or.inl ⟨rfl, rfl⟩)) rfl hret
  · rw [connect_dockerLogs env req hc] at hret ⊢
    exact run_frames _ _ evs (Or.inr (Or.inr (Or.inl ⟨rfl, rfl⟩))) rfl hret

/-- Witness for C21: a Network-Ping session whose child writes to standard
output, standard error and standard output again. -/
theorem C21_witness_ping_interleaved :
    sentFrames ((connect linuxEnv .NetworkPing pingRequest).run
      ([Event.pingStdout "PING 10.0.0.1", .pingStderr "ping: sendmsg", .pingStdout "64 bytes"].map
        Input.event)).2.effects
      = ["PING 10.0.0.1", "ping: sendmsg", "64 bytes"] :=
  (C21_one_frame_per_chunk_in_order linuxEnv pingRequest .NetworkPing
    (connect linuxEnv .NetworkPing pingRequest)
    [.pingStdout "PING 10.0.0.1", .pingStderr "ping: sendmsg", .pingStdout "64 bytes"]
    (Or.inl ⟨Or.inr (Or.inr rfl), by decide, rfl⟩) (by decide)).trans rfl

/-! ## Messages of unknown type -/

/-- C22: a message that parses to a JSON object whose `type` is absent or is
anything but the strings `"input"` and `"resize"` makes the listener of a Shell
or Container-Exec session return without any call (no write, no resize, no
kill), whatever the other properties of the object are. -/
theorem C22_unknown_type_is_dropped
    (env : Env) (req : UpgradeRequest) (k : Kind) (m : String)
    (props : List (String × JSValue)) (exited : Bool)
    (hk : k = .Shell ∨ k = .ContainerExec)
    (hspawn : handleCount (onConnection env k req) = 1)
    (hparse : JSON.parse m = .ok (.object props))
    (hinput : ((JSValue.object props).get "type").strictEq "input" = false)
    (hresize : ((JSValue.object props).get "type").strictEq "resize" = false) :
    ptyOnMessage exited m = ⟨[], .normal⟩ ∧
    emit (listeners (onConnection env k req)) exited (.wsMessage m) = ⟨[], .normal⟩ := by
  have h : ptyOnMessage exited m = ⟨[], .normal⟩ := by
    have hnn : (JSValue.object props).isNullish = false := rfl
    simp [ptyOnMessage, ptyOnParsed, hparse, hnn, hinput, hresize]
  refine ⟨h, ?_⟩
  rw [listeners_pty env req k hk hspawn, emit_pty_message, h]

/-- Witness for C22: the frames `{"data":"ls"}` and `{"type":5,"data":null}` on a
Shell session. -/
theorem C22_witness_no_type_and_numeric_type :
    emit (listeners (onConnection linuxEnv .Shell shellRequest)) false
      (.wsMessage "\x7b\"data\":\"ls\"\x7d") = ⟨[], .normal⟩ ∧
    emit (listeners (onConnection linuxEnv .Shell shellRequest)) false
      (.wsMessage "\x7b\"type\":5,\"data\":null\x7d") = ⟨[], .normal⟩ :=
  ⟨(C22_unknown_type_is_dropped linuxEnv shellRequest .Shell "\x7b\"data\":\"ls\"\x7d"
      [("data", .string "ls")] false (Or.inl rfl) rfl rfl rfl rfl).2,
    rfl⟩

/-! ## The last segment of the request URL -/

theorem splitSlash_eq_singleton_nil (cs : List Char) (h : splitSlash cs = [[]]) : cs = [] := by
  cases cs with
  | nil => rfl
  | cons c cs =>
    exfalso
    unfold splitSlash at h
    split at h
    · simp only [List.cons.injEq, true_and] at h
      exact splitSlash_ne_nil cs h
    · split at h
      · simp at h
      · simp at h

theorem splitSlash_getLast (cs : List Char) :
    (splitSlash cs).getLast? = some [] ↔ cs = [] ∨ cs.getLast? = some '/' := by
  induction cs with
  | nil => simp [splitSlash]
  | cons c cs ih =>
    unfold splitSlash
    by_cases hc : c = '/'
    · subst hc
      simp only [if_true]
      cases hS : splitSlash cs with
      | nil => exact absurd hS (splitSlash_ne_nil cs)
      | cons seg rest =>
        rw [List.getLast?_cons_cons, ← hS, ih]
        cases cs with
        | nil => simp
        | cons d ds => simp [List.getLast?_cons_cons]
    · simp only [hc, if_false]
      cases hS : splitSlash cs with
      | nil => exact absurd hS (splitSlash_ne_nil cs)
      | cons seg rest =>
        simp only
        cases rest with
        | nil =>
          have hno : cs.getLast? ≠ some '/' := by
            intro hl
            have h1 : (splitSlash cs).getLast? = some [] := ih.mpr (Or.inr hl)
            rw [hS] at h1
            simp at h1
            subst h1
            have := splitSlash_eq_singleton_nil cs hS
            subst this
            simp at hl
          cases cs with
          | nil => simp [hc]
          | cons d ds =>
            simp only [List.getLast?_cons_cons]
            simp [hno]
        | cons seg2 rest2 =>
          rw [List.getLast?_cons_cons]
          have h2 : (splitSlash cs).getLast? = (seg2 :: rest2).getLast? := by
            rw [hS, List.getLast?_cons_cons]
          rw [← h2, ih]
          cases cs with
          | nil => simp [splitSlash] at hS
          | cons d ds => simp [List.getLast?_cons_cons]

theorem split_getLast_empty (s : String) :
    (split s).getLast? = some "" ↔ s.data = [] ∨ s.data.getLast? = some '/' := by
  rw [← splitSlash_getLast]
  unfold split
  rw [List.getLast?_map]
  cases (splitSlash s.data).getLast? with
  | none => simp
  | some seg =>
    simp only [Option.map_some', Option.some.injEq]
    constructor
    · intro h
      have := congrArg String.data h
      simpa using this
    · intro h
      subst h
      rfl

/-- C23: a Container-Exec connection whose request URL ends in `/` makes the
single call `ws.close()`: no process is spawned and no listener is registered;
for every other request URL the handler spawns exactly one process, `docker
exec` on the text after the last `/`, and registers its three listeners.  (The
request target of an HTTP request is never empty.) -/
theorem C23_exec_url_ending_in_slash_closes
    (req : UpgradeRequest) (hne : req.url.data ≠ []) :
    (req.url.data.getLast? = some '/' →
      dockerShellOnConnection req = [.wsClose] ∧
      (dockerShellOnConnection req).countP Effect.isSpawn = 0 ∧
      listeners (dockerShellOnConnection req) = []) ∧
    (req.url.data.getLast? ≠ some '/' →
      ∃ containerId : String, containerId ≠ "" ∧
        (split req.url).getLast? = some containerId ∧
        dockerShellOnConnection req
          = [.ptySpawn "docker"
              ["exec", "-it", containerId, "sh", "-c",
                "TERM=xterm-256color /bin/bash || /bin/sh"]
              "xterm-color" 80 30,
            .on .termOnData, .on .wsMessage, .on .wsCloseKillTerm] ∧
        (dockerShellOnConnection req).countP Effect.isSpawn = 1) := by
  constructor
  · intro hslash
    have hl : (split req.url).getLast? = some "" :=
      (split_getLast_empty req.url).mpr (Or.inr hslash)
    have hc : dockerShellOnConnection req = [.wsClose] := by
      simp [dockerShellOnConnection, hl]
    rw [hc]
    exact ⟨rfl, rfl, rfl⟩
  · intro hslash
    cases hl : (split req.url).getLast? with
    | none => exact absurd hl (split_getLast?_ne_none _)
    | some containerId =>
      have hid : containerId ≠ "" := by
        intro h
        subst h
        rcases (split_getLast_empty req.url).mp hl with h | h
        · exact hne h
        · exact hslash h
      refine ⟨containerId, hid, rfl, ?_⟩
      have hc : dockerShellOnConnection req
          = [.ptySpawn "docker"
              ["exec", "-it", containerId, "sh", "-c",
                "TERM=xterm-256color /bin/bash || /bin/sh"]
              "xterm-color" 80 30,
            .on .termOnData, .on .wsMessage, .on .wsCloseKillTerm] := by
        simp [dockerShellOnConnection, hl, hid]
      rw [hc]
      exact ⟨rfl, rfl⟩

/-- Witness for C23: the request `/api/docker/shell/abc/`. -/
theorem C23_witness_trailing_slash :
    dockerShellOnConnection
      ⟨"/api/docker/shell/abc/", some "/api/docker/shell/abc/", none, true⟩ = [.wsClose] :=
  ((C23_exec_url_ending_in_slash_closes
    ⟨"/api/docker/shell/abc/", some "/api/docker/shell/abc/", none, true⟩
    (by decide)).1 (by decide)).1

/-! ## The name of a container -/

theorem containerName_eq_nameRule (c : ContainerInfo) : containerName c = nameRule c.Names := by
  unfold containerName nameRule
  cases c.Names with
  | none => rfl
  | some names =>
    cases names with
    | nil => rfl
    | cons first rest => simp [List.drop_one]

/-- C24: in the Container-List payload and in the running-containers listing
alike, the `Name` of a container is the first entry of its `Names` without its
first character when `Names` is present and not empty, and the literal
`(no name)` when `Names` is missing or empty. -/
theorem C24_name_is_first_entry_without_first_character
    (containers : List ContainerInfo) :
    onListContainers (some containers) false
      = ⟨[.wsSendJSON (.object [("type", .string "all-containers"),
          ("payload", .array (containers.map (fun c =>
            JSValue.object [("Id", c.Id), ("Name", .string (nameRule c.Names)),
              ("Image", c.Image), ("State", c.State), ("Status", c.Status),
              ("Ports", c.Ports)])))])], .normal⟩ ∧
    handleGetRunningContainers (.ok containers)
      = ⟨200, .array (containers.map (fun c =>
          JSValue.object [("Id", c.Id), ("Name", .string (nameRule c.Names))]))⟩ ∧
    nameRule none = "(no name)" ∧ nameRule (some []) = "(no name)" ∧
    ∀ (first : String) (rest : List String),
      nameRule (some (first :: rest)) = String.mk (first.data.drop 1) := by
  refine ⟨?_, ?_, rfl, rfl, ?_⟩
  · have hf : simplifyContainer = fun c =>
        JSValue.object [("Id", c.Id), ("Name", .string (nameRule c.Names)),
          ("Image", c.Image), ("State", c.State), ("Status", c.Status),
          ("Ports", c.Ports)] := by
      funext c
      simp only [simplifyContainer, containerName_eq_nameRule]
    simp [onListContainers, hf]
  · have hf : simplifyRunning = fun c =>
        JSValue.object [("Id", c.Id), ("Name", .string (nameRule c.Names))] := by
      funext c
      have := containerName_eq_nameRule c
      unfold containerName at this
      unfold simplifyRunning
      rw [this]
    simp [handleGetRunningContainers, hf]
  · intro first rest
    simp [nameRule, List.drop_one]

/-! ## Resolving redirects -/

theorem redirectChain_snoc (net : Net) (hops : List String) (cur next : String)
    (response : HttpResponse) (location : String)
    (hchain : RedirectChain net (hops ++ [cur]))
    (hget : net.get hops.length cur = some response)
    (hred : redirectTarget response = some location)
    (hres : net.resolve location cur = some next) :
    RedirectChain net ((hops ++ [cur]) ++ [next]) := by
  intro j a b ha hb
  have hlen : (hops ++ [cur]).length = hops.length + 1 := by simp
  by_cases hj : j + 1 < (hops ++ [cur]).length
  · rw [List.getElem?_append_left (by omega)] at ha
    rw [List.getElem?_append_left hj] at hb
    exact hchain j a b ha hb
  · have hjle : j < (hops ++ [cur]).length := by
      by_contra hcon
      rw [List.getElem?_eq_none (by simp at hcon ⊢; omega)] at hb
      cases hb
    have hjeq : j = hops.length := by omega
    subst hjeq
    rw [List.getElem?_append_left (by omega),
      List.getElem?_append_right (Nat.le_refl _)] at ha
    rw [List.getElem?_append_right (by omega)] at hb
    simp at ha hb
    subst ha hb
    exact ⟨response, location, hget, hred, hres⟩

theorem redirectChain_prefix (net : Net) (hops : List String) (cur : String)
    (hchain : RedirectChain net (hops ++ [cur])) : RedirectChain net hops := by
  intro j a b ha hb
  have hj1 : j + 1 < hops.length := by
    by_contra hcon
    rw [List.getElem?_eq_none (by omega)] at hb
    cases hb
  apply hchain j a b
  · rw [List.getElem?_append_left (by omega)]; exact ha
  · rw [List.getElem?_append_left hj1]; exact hb

theorem resolveLoop_spec (net : Net) (url : String) :
    ∀ (n i : Nat) (cur : String) (hops : List String),
      i + n = 10 → hops.length = i → RedirectChain net (hops ++ [cur]) →
      (hops ++ [cur]).head? = some url →
      1 ≤ (resolveLoop net n i cur hops).requests ∧
      (resolveLoop net n i cur hops).requests ≤ 10 ∧
      ∀ finalUrl hs, (resolveLoop net n i cur hops).outcome = some (finalUrl, hs) →
        hs.length = (resolveLoop net n i cur hops).requests ∧
        hs.head? = some url ∧ RedirectChain net hs ∧
        ∃ last response, hs.getLast? = some last ∧
          net.get (hs.length - 1) last = some response ∧
          ((redirectTarget response = none ∧ finalUrl = last) ∨
            (hs.length = 10 ∧ ∃ location, redirectTarget response = some location ∧
              net.resolve location last = some finalUrl)) := by
  intro n
  induction n with
  | zero =>
    intro i cur hops hin hlen hchain hhead
    have hi : i = 10 := by omega
    subst hi
    simp only [resolveLoop]
    refine ⟨by omega, by omega, ?_⟩
    intro finalUrl hs hout
    simp only [Option.some.injEq, Prod.mk.injEq] at hout
    obtain ⟨rfl, rfl⟩ := hout
    have hne : hops ≠ [] := by
      intro h
      rw [h] at hlen
      simp at hlen
    obtain ⟨front, last, rfl⟩ : ∃ front last, hops = front ++ [last] :=
      ⟨hops.dropLast, hops.getLast hne, (List.dropLast_append_getLast hne).symm⟩
    have hfl : front.length = 9 := by simpa using hlen
    refine ⟨hlen, ?_, redirectChain_prefix net _ _ hchain, ?_⟩
    · cases front with
      | nil => simp at hfl
      | cons a rest => simpa using hhead
    · obtain ⟨response, location, hget, hred, hres⟩ := hchain 9 last cur
        (by rw [List.getElem?_append_left (by simp [hfl]),
              List.getElem?_append_right (by omega)]; simp [hfl])
        (by rw [List.getElem?_append_right (by simp [hfl])]; simp [hfl])
      refine ⟨last, response, by simp, ?_, Or.inr ⟨hlen, location, hred, hres⟩⟩
      rw [hlen]
      exact hget
  | succ n ih =>
    intro i cur hops hin hlen hchain hhead
    simp only [resolveLoop]
    cases hget : net.get i cur with
    | none =>
      simp only
      exact ⟨by omega, by omega, by intro f hs h; cases h⟩
    | some response =>
      simp only
      cases hred : redirectTarget response with
      | none =>
        simp only
        refine ⟨by omega, by omega, ?_⟩
        intro finalUrl hs hout
        simp only [Option.some.injEq, Prod.mk.injEq] at hout
        obtain ⟨rfl, rfl⟩ := hout
        refine ⟨by simp [hlen], hhead, hchain, cur, response, by simp, ?_, Or.inl ⟨hred, rfl⟩⟩
        simp [hlen, hget]
      | some location =>
        simp only
        cases hres : net.resolve location cur with
        | none =>
          simp only
          exact ⟨by omega, by omega, by intro f hs h; cases h⟩
        | some next =>
          simp only
          apply ih (i + 1) next (hops ++ [cur]) (by omega) (by simp [hlen])
          · exact redirectChain_snoc net hops cur next response location hchain
              (by rw [hlen]; exact hget) hred hres
          · cases hops with
            | nil => simpa using hhead
            | cons a rest => simpa using hhead

theorem resolveLoop_failure (net : Net) :
    ∀ (n i : Nat) (cur : String) (hops : List String),
      (resolveLoop net n i cur hops).outcome = none →
      ∃ (j : Nat) (at_ : String), net.get j at_ = none ∨
        ∃ response location, net.get j at_ = some response ∧
          redirectTarget response = some location ∧ net.resolve location at_ = none := by
  intro n
  induction n with
  | zero =>
    intro i cur hops h
    simp [resolveLoop] at h
  | succ n ih =>
    intro i cur hops h
    simp only [resolveLoop] at h
    cases hget : net.get i cur with
    | none => exact ⟨i, cur, Or.inl hget⟩
    | some response =>
      rw [hget] at h
      simp only at h
      cases hred : redirectTarget response with
      | none =>
        rw [hred] at h
        simp at h
      | some location =>
        rw [hred] at h
        simp only at h
        cases hres : net.resolve location cur with
        | none => exact ⟨i, cur, Or.inr ⟨response, location, hget, hred, hres⟩⟩
        | some next =>
          rw [hres] at h
          exact ih (i + 1) next (hops ++ [cur]) h

/-- C25, as stated, fails: the first response is a redirect whose `Location`
the `URL` constructor rejects; the exception is caught, the answer is 500 with
the error message, and there is no `hops` list. -/
theorem C25_counterexample_malformed_location :
    malformedRedirectNet.get 0 "http://a.example/" = some ⟨302, some "http://["⟩ ∧
    handleResolveUrl malformedRedirectNet "http://a.example/"
      = (1, ⟨500, .object [("error", .string "Could not resolve URL.")]⟩) :=
  ⟨rfl, rfl⟩

/-- C25, amended: for every start URL and every behaviour of the network,
`handleResolveUrl` issues between 1 and 10 requests.  Either a request is
rejected or a redirect target cannot be resolved, and the answer is 500 with an
error message and no `hops`; or the answer is 200 with `finalUrl` and `hops`,
where `hops` has one URL per request issued (between 1 and 10), starts with the
start URL, each later element is the redirect target of the response before it
resolved against the element before it, and the loop ended either on a response
that is no redirect, with `finalUrl` the last element of `hops`, or after the
tenth request on a redirect, with `finalUrl` its resolved target. -/
theorem C25_at_most_ten_requests_and_hops_follow_redirects (net : Net) (url : String) :
    1 ≤ (handleResolveUrl net url).1 ∧ (handleResolveUrl net url).1 ≤ 10 ∧
    (((handleResolveUrl net url).2
          = ⟨500, .object [("error", .string "Could not resolve URL.")]⟩ ∧
        ∃ (j : Nat) (at_ : String), net.get j at_ = none ∨
          ∃ response location, net.get j at_ = some response ∧
            redirectTarget response = some location ∧ net.resolve location at_ = none) ∨
      ∃ (finalUrl : String) (hops : List String),
        (handleResolveUrl net url).2
          = ⟨200, .object [("finalUrl", .string finalUrl),
              ("hops", .array (hops.map .string))]⟩ ∧
        hops.length = (handleResolveUrl net url).1 ∧
        hops.head? = some url ∧ RedirectChain net hops ∧
        ∃ last response, hops.getLast? = some last ∧
          net.get (hops.length - 1) last = some response ∧
          ((redirectTarget response = none ∧ finalUrl = last) ∨
            (hops.length = 10 ∧ ∃ location, redirectTarget response = some location ∧
              net.resolve location last = some finalUrl))) := by
  have hspec := resolveLoop_spec net url 10 0 url [] rfl rfl
    (by intro j a b ha hb; simp at hb) rfl
  have hfail := resolveLoop_failure net 10 0 url []
  unfold handleResolveUrl
  cases hout : (resolveLoop net 10 0 url []).outcome with
  | none =>
    exact ⟨hspec.1, hspec.2.1, Or.inl ⟨rfl, hfail hout⟩⟩
  | some result =>
    obtain ⟨finalUrl, hops⟩ := result
    have h := hspec.2.2 finalUrl hops hout
    exact ⟨hspec.1, hspec.2.1, Or.inr ⟨finalUrl, hops, rfl, h.1, h.2.1, h.2.2.1, h.2.2.2⟩⟩

/-- Witness for C25: `http://a.example/` redirects to `/b`, which answers 200. -/
theorem C25_witness_one_redirect :
    handleResolveUrl oneRedirectNet "http://a.example/"
      = (2, ⟨200, .object [("finalUrl", .string "http://a.example/b"),
          ("hops", .array [.string "http://a.example/", .string "http://a.example/b"])]⟩) ∧
    (handleResolveUrl oneRedirectNet "http://a.example/").1 ≤ 10 :=
  ⟨rfl, (C25_at_most_ten_requests_and_hops_follow_redirects oneRedirectNet
    "http://a.example/").2.1⟩

/-! ## The proxy configurator: scanning a generated file -/

theorem matchAt_of_mismatch (name cs rest : List Char) (h : mismatchIn name cs = true) :
    matchAt name (cs ++ rest) = none := by
  induction name generalizing cs with
  | nil => cases cs <;> simp [mismatchIn] at h
  | cons n name ih =>
    cases cs with
    | nil => simp [mismatchIn] at h
    | cons c cs =>
      simp only [mismatchIn] at h
      simp only [List.cons_append, matchAt]
      split
      · rename_i hnc
        rw [if_pos hnc] at h
        exact ih cs h
      · rfl

theorem startsAt_of_mismatch (needle cs rest : List Char) (h : mismatchIn needle cs = true) :
    startsAt needle (cs ++ rest) = false := by
  induction needle generalizing cs with
  | nil => cases cs <;> simp [mismatchIn] at h
  | cons n needle ih =>
    cases cs with
    | nil => simp [mismatchIn] at h
    | cons c cs =>
      simp only [mismatchIn] at h
      simp only [List.cons_append, startsAt]
      by_cases hnc : n = c
      · rw [if_pos hnc] at h
        simp [hnc, ih cs h]
      · simp [hnc]

theorem matchFirst_skip (name pre rest : List Char)
    (h : mismatchEverywhere name pre = true) :
    matchFirst name (pre ++ rest) = matchFirst name rest := by
  induction pre with
  | nil => rfl
  | cons c pre ih =>
    simp only [mismatchEverywhere, Bool.and_eq_true] at h
    have h1 := matchAt_of_mismatch name (c :: pre) rest h.1
    simp only [List.cons_append] at h1 ⊢
    simp only [matchFirst, h1]
    exact ih h.2

theorem includes_skip (needle pre rest : List Char)
    (h : mismatchEverywhere needle pre = true) :
    includes needle (pre ++ rest) = includes needle rest := by
  induction pre with
  | nil => rfl
  | cons c pre ih =>
    simp only [mismatchEverywhere, Bool.and_eq_true] at h
    have h1 := startsAt_of_mismatch needle (c :: pre) rest h.1
    simp only [List.cons_append] at h1 ⊢
    simp only [includes, h1, Bool.false_or]
    exact ih h.2

theorem matchAt_token (name s rest : List Char)
    (hname : ∀ c ∈ name, c ≠ ';')
    (hs : ∀ c ∈ s, c ≠ ';' ∧ isRegexSpace c = false) :
    matchAt name (s ++ ';' :: rest) = none := by
  induction name generalizing s with
  | nil =>
    cases s with
    | nil => simp [matchAt, isRegexSpace]
    | cons c s => simp [matchAt, (hs c (List.mem_cons_self _ _)).2]
  | cons n name ih =>
    cases s with
    | nil =>
      have hn : n ≠ ';' := hname n (List.mem_cons_self _ _)
      simp [matchAt, hn]
    | cons c s =>
      simp only [List.cons_append, matchAt]
      split
      · exact ih s (fun x hx => hname x (List.mem_cons_of_mem _ hx))
          (fun x hx => hs x (List.mem_cons_of_mem _ hx))
      · rfl

theorem matchFirst_token (name s rest : List Char)
    (hname : ∀ c ∈ name, c ≠ ';')
    (hs : ∀ c ∈ s, c ≠ ';' ∧ isRegexSpace c = false) :
    matchFirst name (s ++ ';' :: rest) = matchFirst name (';' :: rest) := by
  induction s with
  | nil => rfl
  | cons c s ih =>
    have h1 := matchAt_token name (c :: s) rest hname hs
    simp only [List.cons_append] at h1 ⊢
    simp only [matchFirst, h1]
    exact ih (fun x hx => hs x (List.mem_cons_of_mem _ hx))

theorem startsAt_token (needle s rest : List Char)
    (hsemi : ∀ c ∈ needle, c ≠ ';')
    (hspace : ∃ c ∈ needle, isRegexSpace c = true)
    (hs : ∀ c ∈ s, c ≠ ';' ∧ isRegexSpace c = false) :
    startsAt needle (s ++ ';' :: rest) = false := by
  induction needle generalizing s with
  | nil =>
    obtain ⟨c, hc, _⟩ := hspace
    simp at hc
  | cons n needle ih =>
    cases s with
    | nil =>
      have hn : n ≠ ';' := hsemi n (List.mem_cons_self _ _)
      simp [startsAt, hn]
    | cons c s =>
      simp only [List.cons_append, startsAt]
      by_cases hnc : n = c
      · subst hnc
        have hnsp := (hs n (List.mem_cons_self _ _)).2
        have hspace' : ∃ c ∈ needle, isRegexSpace c = true := by
          obtain ⟨x, hx, hxs⟩ := hspace
          rcases List.mem_cons.mp hx with rfl | hx'
          · rw [hnsp] at hxs
            cases hxs
          · exact ⟨x, hx', hxs⟩
        simp [ih s (fun x hx => hsemi x (List.mem_cons_of_mem _ hx)) hspace'
          (fun x hx => hs x (List.mem_cons_of_mem _ hx))]
      · simp [hnc]

theorem includes_token (needle s rest : List Char)
    (hsemi : ∀ c ∈ needle, c ≠ ';')
    (hspace : ∃ c ∈ needle, isRegexSpace c = true)
    (hs : ∀ c ∈ s, c ≠ ';' ∧ isRegexSpace c = false) :
    includes needle (s ++ ';' :: rest) = includes needle (';' :: rest) := by
  induction s with
  | nil => rfl
  | cons c s ih =>
    have h1 := startsAt_token needle (c :: s) rest hsemi hspace hs
    simp only [List.cons_append] at h1 ⊢
    simp only [includes, h1, Bool.false_or]
    exact ih (fun x hx => hs x (List.mem_cons_of_mem _ hx))

theorem matchAt_self (name cs : List Char) : matchAt name (name ++ cs) = matchAt [] cs := by
  induction name with
  | nil => rfl
  | cons n name ih => simp [matchAt, ih]

theorem matchGroup_token (s rest : List Char) (hne : s ≠ [])
    (hs : ∀ c ∈ s, c ≠ ';' ∧ isRegexSpace c = false) :
    matchGroup (s ++ ';' :: rest) = some s := by
  have htake : (s ++ ';' :: rest).takeWhile (fun c => c != ';') = s := by
    induction s with
    | nil => simp [List.takeWhile]
    | cons c s ih =>
      have hc := (hs c (List.mem_cons_self _ _)).1
      simp only [List.cons_append, List.takeWhile_cons, bne_iff_ne, ne_eq, hc,
        not_false_eq_true, decide_True, if_true, List.cons.injEq, true_and]
      by_cases hsn : s = []
      · subst hsn
        simp [List.takeWhile]
      · exact ih hsn (fun x hx => hs x (List.mem_cons_of_mem _ hx))
  have hdrop : (s ++ ';' :: rest).dropWhile (fun c => c != ';') = ';' :: rest := by
    clear htake hne
    induction s with
    | nil => simp [List.dropWhile]
    | cons c s ih =>
      have hc := (hs c (List.mem_cons_self _ _)).1
      simp only [List.cons_append, List.dropWhile_cons, bne_iff_ne, ne_eq, hc,
        not_false_eq_true, decide_True, if_true]
      exact ih (fun x hx => hs x (List.mem_cons_of_mem _ hx))
  unfold matchGroup
  rw [hdrop, htake]
  cases s with
  | nil => exact absurd rfl hne
  | cons c s => rfl

theorem matchFirst_at_directive (name s rest : List Char) (hne : s ≠ [])
    (hs : ∀ c ∈ s, c ≠ ';' ∧ isRegexSpace c = false) :
    matchFirst name (name ++ ' ' :: (s ++ ';' :: rest)) = some s := by
  have hat : matchAt name (name ++ ' ' :: (s ++ ';' :: rest)) = some s := by
    rw [matchAt_self]
    cases s with
    | nil => exact absurd rfl hne
    | cons c s =>
      have hc := (hs c (List.mem_cons_self _ _)).2
      have hsp : isRegexSpace ' ' = true := by decide
      have hg := matchGroup_token (c :: s) rest (by simp) hs
      simp only [List.cons_append] at hg
      simp [matchAt, matchSpaces, hsp, hc, hg]
  cases hn : name ++ ' ' :: (s ++ ';' :: rest) with
  | nil => simp at hn
  | cons c cs =>
    rw [hn] at hat
    simp [matchFirst, hat]

theorem includes_here (needle pre post : List Char) :
    includes needle (pre ++ (needle ++ post)) = true := by
  have hstart : ∀ (n cs : List Char), startsAt n (n ++ cs) = true := by
    intro n
    induction n with
    | nil => intro cs; rfl
    | cons a n ih => intro cs; simp [startsAt, ih]
  induction pre with
  | nil =>
    cases h : needle ++ post with
    | nil =>
      have : needle = [] := by
        cases needle with
        | nil => rfl
        | cons a n => simp at h
      subst this
      simp [includes, startsAt]
    | cons c cs =>
      simp only [List.nil_append, h, includes]
      rw [← h, hstart]
      rfl
  | cons c pre ih =>
    simp only [List.cons_append, includes, List.append_eq, ih, Bool.or_true]

theorem isToken_spec (s : String) (h : isToken s = true) :
    s.data ≠ [] ∧ ∀ c ∈ s.data, c ≠ ';' ∧ isRegexSpace c = false := by
  unfold isToken at h
  simp only [Bool.and_eq_true, Bool.not_eq_true', List.all_eq_true, bne_iff_ne, ne_eq,
    List.isEmpty_eq_false] at h
  exact ⟨h.1, fun c hc => h.2 c hc⟩

theorem includes_of_suffix (needle pre rest : List Char) (h : includes needle rest = true) :
    includes needle (pre ++ rest) = true := by
  induction pre with
  | nil => exact h
  | cons c pre ih => simp only [List.cons_append, includes, List.append_eq, ih, Bool.or_true]

set_option maxRecDepth 100000 in
theorem generated_data_plain (domain target : String) :
    (generateNginxConfig domain target false).data
      = "server \x7b\n    ".data ++ ("server_name".data ++ ' ' :: (domain.data ++ ';' ::
          ("\n\n    location / \x7b\n        ".data ++ ("proxy_pass".data ++ ' ' ::
            (target.data ++ ';' ::
              "\n        proxy_set_header Host $host;\n        proxy_set_header X-Real-IP $remote_addr;\n        proxy_set_header X-Forwarded-For $proxy_add_x_forwarded_for;\n        proxy_http_version 1.1;\n        proxy_set_header Upgrade $http_upgrade;\n        proxy_set_header Connection \"upgrade\";\n    \x7d\n    listen 80;\n\x7d".data))))) := by
  unfold generateNginxConfig
  simp only [String.data_append, List.append_assoc, Bool.false_eq_true, if_false]
  rfl

set_option maxRecDepth 100000 in
theorem generated_data_ssl (domain target : String) :
    ∃ post : List Char,
    (generateNginxConfig domain target true).data
      = "server \x7b\n    ".data ++ ("server_name".data ++ ' ' :: (domain.data ++ ';' ::
          ("\n\n    location / \x7b\n        ".data ++ ("proxy_pass".data ++ ' ' ::
            (target.data ++ ';' ::
              ("\n        proxy_set_header Host $host;\n        proxy_set_header X-Real-IP $remote_addr;\n        proxy_set_header X-Forwarded-For $proxy_add_x_forwarded_for;\n        proxy_http_version 1.1;\n        proxy_set_header Upgrade $http_upgrade;\n        proxy_set_header Connection \"upgrade\";\n    \x7d\n\n    ".data
                ++ ("listen 443 ssl".data ++ post))))))) := by
  refine ⟨";\n    ssl_certificate /etc/letsencrypt/live/".data ++ (domain.data ++
    ("/fullchain.pem;\n    ssl_certificate_key /etc/letsencrypt/live/".data ++ (domain.data ++
      ("/privkey.pem;\n    include /etc/letsencrypt/options-ssl-nginx.conf;\n    ssl_dhparam /etc/letsencrypt/ssl-dhparams.pem;\n\x7d\nserver \x7b\n    if ($host = ".data
        ++ (domain.data ++
          (") \x7b\n        return 301 https://$host$request_uri;\n    \x7d\n\n    listen 80;\n    server_name ".data
            ++ (domain.data ++ (";\n    return 404;\n".data ++ "\n\x7d".data)))))))), ?_⟩
  unfold generateNginxConfig
  simp only [String.data_append, List.append_assoc, if_true]
  rfl

set_option maxRecDepth 100000 in
theorem scan_generated (domain target : String) (ssl : Bool)
    (hd : isToken domain = true) (ht : isToken target = true) :
    matchFirst "server_name".data (generateNginxConfig domain target ssl).data
      = some domain.data ∧
    matchFirst "proxy_pass".data (generateNginxConfig domain target ssl).data
      = some target.data ∧
    includes "listen 443 ssl".data (generateNginxConfig domain target ssl).data = ssl := by
  obtain ⟨hdne, hdtok⟩ := isToken_spec domain hd
  obtain ⟨htne, httok⟩ := isToken_spec target ht
  have hname2 : ∀ c ∈ "proxy_pass".data, c ≠ ';' := by decide
  have hneedle : ∀ c ∈ "listen 443 ssl".data, c ≠ ';' := by decide
  have hneedleSpace : ∃ c ∈ "listen 443 ssl".data, isRegexSpace c = true :=
    ⟨' ', by decide, by decide⟩
  cases ssl with
  | false =>
    rw [generated_data_plain]
    refine ⟨?_, ?_, ?_⟩
    · rw [matchFirst_skip _ _ _ (by decide)]
      exact matchFirst_at_directive _ _ _ hdne hdtok
    · rw [matchFirst_skip _ _ _ (by decide)]
      rw [show ∀ rest : List Char, "server_name".data ++ ' ' :: rest
          = ("server_name".data ++ [' ']) ++ rest from fun rest => by simp]
      rw [matchFirst_skip _ _ _ (by decide), matchFirst_token _ _ _ hname2 hdtok]
      rw [show ∀ rest : List Char, ';' :: ("\n\n    location / \x7b\n        ".data ++ rest)
          = (';' :: "\n\n    location / \x7b\n        ".data) ++ rest from fun rest => rfl]
      rw [matchFirst_skip _ _ _ (by decide)]
      exact matchFirst_at_directive _ _ _ htne httok
    · rw [includes_skip _ _ _ (by decide)]
      rw [show ∀ rest : List Char, "server_name".data ++ ' ' :: rest
          = ("server_name".data ++ [' ']) ++ rest from fun rest => by simp]
      rw [includes_skip _ _ _ (by decide), includes_token _ _ _ hneedle hneedleSpace hdtok]
      rw [show ∀ rest : List Char, ';' :: ("\n\n    location / \x7b\n        ".data ++
            ("proxy_pass".data ++ ' ' :: rest))
          = (';' :: "\n\n    location / \x7b\n        proxy_pass ".data) ++ rest
          from fun rest => rfl]
      rw [includes_skip _ _ _ (by decide), includes_token _ _ _ hneedle hneedleSpace httok]
      decide
  | true =>
    obtain ⟨post, hpost⟩ := generated_data_ssl domain target
    rw [hpost]
    refine ⟨?_, ?_, ?_⟩
    · rw [matchFirst_skip _ _ _ (by decide)]
      exact matchFirst_at_directive _ _ _ hdne hdtok
    · rw [matchFirst_skip _ _ _ (by decide)]
      rw [show ∀ rest : List Char, "server_name".data ++ ' ' :: rest
          = ("server_name".data ++ [' ']) ++ rest from fun rest => by simp]
      rw [matchFirst_skip _ _ _ (by decide), matchFirst_token _ _ _ hname2 hdtok]
      rw [show ∀ rest : List Char, ';' :: ("\n\n    location / \x7b\n        ".data ++ rest)
          = (';' :: "\n\n    location / \x7b\n        ".data) ++ rest from fun rest => rfl]
      rw [matchFirst_skip _ _ _ (by decide)]
      exact matchFirst_at_directive _ _ _ htne httok
    · apply includes_of_suffix
      rw [show ∀ rest : List Char, "server_name".data ++ ' ' :: rest
          = ("server_name".data ++ [' ']) ++ rest from fun rest => by simp]
      apply includes_of_suffix
      rw [show ∀ rest : List Char, domain.data ++ ';' :: rest
          = (domain.data ++ [';']) ++ rest from fun rest => by simp]
      apply includes_of_suffix
      apply includes_of_suffix
      rw [show ∀ rest : List Char, "proxy_pass".data ++ ' ' :: rest
          = ("proxy_pass".data ++ [' ']) ++ rest from fun rest => by simp]
      apply includes_of_suffix
      rw [show ∀ rest : List Char, target.data ++ ';' :: rest
          = (target.data ++ [';']) ++ rest from fun rest => by simp]
      apply includes_of_suffix
      exact includes_here _ _ _

/-- C26: for a domain and a target that are not empty and contain neither `;`
nor a character of the class `\s`, and for either value of the ssl flag, the
rule that `handleGetProxyRules` reads back from the text of
`generateNginxConfig(domain, target, ssl)` has exactly that domain, that target
and that ssl flag. -/
theorem C26_generated_config_reads_back
    (file domain target : String) (ssl : Bool)
    (hd : isToken domain = true) (ht : isToken target = true) :
    (ruleOfFile file (generateNginxConfig domain target ssl)).domain = domain ∧
    (ruleOfFile file (generateNginxConfig domain target ssl)).target = target ∧
    (ruleOfFile file (generateNginxConfig domain target ssl)).ssl = ssl := by
  have h := scan_generated domain target ssl hd ht
  simp [ruleOfFile, h.1, h.2.1, h.2.2]

/-- Witness for C26: `app.example.com` proxied to `http://127.0.0.1:8080` with
ssl, read back through `handleGetProxyRules`. -/
theorem C26_witness_app_example :
    (ruleOfFile "nemos-ab12.conf"
      (generateNginxConfig "app.example.com" "http://127.0.0.1:8080" true)).domain
      = "app.example.com" ∧
    (ruleOfFile "nemos-ab12.conf"
      (generateNginxConfig "app.example.com" "http://127.0.0.1:8080" true)).target
      = "http://127.0.0.1:8080" ∧
    (ruleOfFile "nemos-ab12.conf"
      (generateNginxConfig "app.example.com" "http://127.0.0.1:8080" true)).ssl = true :=
  C26_generated_config_reads_back "nemos-ab12.conf" "app.example.com"
    "http://127.0.0.1:8080" true (by decide) (by decide)

end Nemos
